import Mathlib

/-!
Verification of the kiss repository's target-classification and
concurrent-orchestration engine, shallowly embedded in Lean 4.

The embedding follows the Python sources:
* src/xsint/core.py        (XsintEngine: scan, module loading, capabilities)
* src/kiss/scanner/detectors.py (detect_input_type and its helpers)
* src/kiss/query_parser.py (QueryParser: parse, structured queries)
* src/kiss/plugins/registry.py  (PluginRegistry: register, get_all)
* src/kiss/constants.py    (INPUT_PATTERNS)

Python strings are modelled as Lean String / List Char; the anchored
regular expressions from INPUT_PATTERNS are translated into explicit
character-level predicates; re.match (anchored at the start only) and
re.search are modelled accordingly.  Python character classes are
modelled at ASCII level (the repository's patterns are ASCII).

The file is organised as: all definitions first, then all theorems.
-/

namespace Kiss

/-! ## Python-style string primitives -/

/-- ASCII whitespace as recognised by Python's str.strip and the regex
class backslash-s: space, tab, newline, vertical tab, form feed, CR. -/
def pyWS (c : Char) : Bool :=
  c = ' ' || c = '\t' || c = '\n' || c = Char.ofNat 11 || c = Char.ofNat 12 || c = '\r'

/-- Python str.strip() on a character list. -/
def pyStripL (l : List Char) : List Char :=
  ((l.dropWhile pyWS).reverse.dropWhile pyWS).reverse

/-- Python str.strip() on a string. -/
def pyStrip (s : String) : String :=
  ⟨pyStripL s.data⟩

/-- Python str.split(sep) for a single-character separator: always returns
at least one (possibly empty) part. -/
def splitBy (sep : Char) : List Char → List (List Char)
  | [] => [[]]
  | c :: cs =>
    match splitBy sep cs with
    | [] => [[]]
    | p :: ps => if c = sep then [] :: p :: ps else (c :: p) :: ps

/-- ASCII lower-casing, as Python str.lower() on ASCII data. -/
def asciiLower (c : Char) : Char :=
  if 'A' ≤ c ∧ c ≤ 'Z' then Char.ofNat (c.toNat + 32) else c

def lowerL (l : List Char) : List Char := l.map asciiLower

def isDigitB (c : Char) : Bool := '0' ≤ c && c ≤ '9'

def isAlphaB (c : Char) : Bool := ('a' ≤ c && c ≤ 'z') || ('A' ≤ c && c ≤ 'Z')

def isAlnumB (c : Char) : Bool := isAlphaB c || isDigitB c

/-- The regex class [a-f0-9] used by detect_hash_type after lower-casing. -/
def isHexLower (c : Char) : Bool := isDigitB c || ('a' ≤ c && c ≤ 'f')

/-- The regex class [0-9A-Fa-f]. -/
def isHexB (c : Char) : Bool := isDigitB c || ('a' ≤ c && c ≤ 'f') || ('A' ≤ c && c ≤ 'F')

/-- The regex class backslash-w at ASCII level: [A-Za-z0-9_]. -/
def isWordB (c : Char) : Bool := isAlnumB c || c = '_'

/-- Numeric value of an ASCII digit. -/
def digitVal (c : Char) : Nat := c.toNat - 48

/-- Python int() digit parsing: a nonempty digit run in which single
underscores may appear between two digits. -/
def pyDigitsGo (acc : Nat) : List Char → Option Nat
  | [] => some acc
  | '_' :: rest =>
    match rest with
    | [] => none
    | c :: rest2 => if isDigitB c then pyDigitsGo (10 * acc + digitVal c) rest2 else none
  | c :: rest => if isDigitB c then pyDigitsGo (10 * acc + digitVal c) rest else none

def pyDigits : List Char → Option Nat
  | [] => none
  | c :: rest => if isDigitB c then pyDigitsGo (digitVal c) rest else none

/-- Python int(s) on a stripped string: optional sign, then digits
(possibly with underscores).  Returns none where int() raises ValueError. -/
def pyParseInt (s : String) : Option Int :=
  match (pyStrip s).data with
  | '+' :: rest => (pyDigits rest).map (fun n => (n : Int))
  | '-' :: rest => (pyDigits rest).map (fun n => -(n : Int))
  | l => (pyDigits l).map (fun n => (n : Int))

/-- Python-dict insertion on an association list: if the key is present its
value is replaced in place, otherwise the pair is appended.  This models
CPython's insertion-ordered dict assignment d[k] = v. -/
def dinsert {V : Type} (m : List (String × V)) (k : String) (v : V) : List (String × V) :=
  if m.any (fun p => p.1 = k) then
    m.map (fun p => if p.1 = k then (k, v) else p)
  else
    m ++ [(k, v)]

/-- Python dict lookup d.get(k). -/
def dlookup {V : Type} (m : List (String × V)) (k : String) : Option V :=
  (m.find? (fun p => p.1 = k)).map Prod.snd

/-- Python dict.update(other): insert every pair of other in order. -/
def dupdate {V : Type} (m other : List (String × V)) : List (String × V) :=
  other.foldl (fun acc p => dinsert acc p.1 p.2) m

/-! ## Findings and the sentinel filter (xsint/core.py scan, kiss/core.py scan) -/

/-- A module finding: the dict with keys label, value, source, risk that
every module returns. -/
structure Finding where
  label : String
  value : String
  source : String
  risk : String
  deriving DecidableEq, Repr

/-- The sentinel value meaning "module ran cleanly but found nothing". -/
def sentinelNone : String := "None found"

/-- The filter from XsintEngine.scan (xsint/core.py line 329) and
KissEngine.scan (kiss/core.py line 183): drop every finding whose value is
the sentinel. -/
def filterSentinel (l : List Finding) : List Finding :=
  l.filter (fun r => r.value ≠ sentinelNone)

end Kiss

namespace Xsint

open Kiss

/-! ## XsintEngine (src/xsint/core.py) -/

/-- VALID_TYPES from xsint/core.py lines 12-23. -/
def VALID_TYPES : List String :=
  ["email", "username", "phone", "ip", "address", "hash", "name", "id", "ssn", "passport"]

/-- A value carried in a progress-event payload. -/
inductive PVal where
  | str (s : String)
  | num (n : Int)
  | strs (l : List String)
  | pairs (l : List (String × String))
  deriving DecidableEq, Repr

/-- A progress event: an event name plus event-specific payload fields. -/
structure Event where
  event : String
  payload : List (String × PVal)
  deriving DecidableEq, Repr

/-- A progress callback.  It may raise an exception, modelled by the
Except error channel. -/
def ProgressCb : Type := Event → Except String Unit

/-- XsintEngine._emit_progress (xsint/core.py lines 95-105): call the
callback inside try/except so that a raising callback never breaks the
scan pipeline.  The callback's outcome, normal or exceptional, is
discarded. -/
def emitProgress (cb : Option ProgressCb) (ev : Event) : Unit :=
  match cb with
  | none => ()
  | some f =>
    match f ev with
    | .ok _ => ()
    | .error _ => ()

/-- The INFO dict of a module file, as read by _scan_modules. -/
structure ModInfo where
  free : List String := []
  paid : List String := []
  apiKey : Option String := none
  returns : List String := []
  themes : Option (List (String × String)) := none
  deriving DecidableEq, Repr

/-- What a module's run coroutine does when awaited under asyncio.wait_for
in _run_module_with_progress: return a (status, findings) 2-tuple, return
something else, raise an exception, or exceed the timeout. -/
inductive RunOutcome where
  | val (status : Int) (data : List Finding)
  | other
  | exc (msg : String)
  | timedOut
  deriving DecidableEq, Repr

/-- One module as seen by the engine: its INFO metadata plus the runtime
facts the engine probes (import success, is_ready, presence of a callable
run) and the behaviour of its run function. -/
structure ScannedModule where
  name : String
  info : ModInfo := {}
  importOk : Bool := true
  ready : Bool := true
  readyReason : String := ""
  hasRun : Bool := true
  behavior : RunOutcome := .other
  deriving DecidableEq, Repr

/-- XsintEngine._load_modules_for_type (xsint/core.py lines 191-232):
select the modules runnable for the target type.  A module is considered
when the type is in its free or paid lists; it is silently skipped when
the type is only paid and the configured key is absent; an import failure
is swallowed; a module that is not ready is reported in the skipped list;
otherwise, if it has a callable run, it becomes a runner. -/
def loadModulesForType (keyLookup : String → Option String)
    (mods : List ScannedModule) (targetType : String) :
    List ScannedModule × List (String × String) :=
  mods.foldl
    (fun acc m =>
      if targetType ∈ m.info.free ∨ targetType ∈ m.info.paid then
        if (m.info.paid.contains targetType && !m.info.free.contains targetType) &&
            (match m.info.apiKey with
             | some k => (keyLookup k).isNone
             | none => false) then
          acc
        else if !m.importOk then
          acc
        else if !m.ready then
          (acc.1, acc.2 ++ [(m.name, if m.readyReason = "" then "not configured" else m.readyReason)])
        else if m.hasRun then
          (acc.1 ++ [m], acc.2)
        else
          acc
      else
        acc)
    ([], [])

/-- One row of the capability listing built by get_capabilities. -/
structure CapEntry where
  name : String
  status : String
  apiKey : Option String
  returns : List String
  reason : String
  deriving DecidableEq, Repr

/-- The entry get_capabilities (xsint/core.py lines 131-178) produces for
one module under one target type, if any: the type must be among the
module's free or paid types and be a valid type; the status is active for
a free type, active for a paid type with a configured key, locked
otherwise, and downgraded to locked when the module is not runtime-ready. -/
def capEntryFor (keyLookup : String → Option String) (t : String)
    (m : ScannedModule) : Option CapEntry :=
  let hasKey := match m.info.apiKey with
    | some k => (keyLookup k).isSome
    | none => true
  let runtimeReady := m.importOk && m.ready
  let rReason := if !m.importOk then "not installed" else m.readyReason
  if t ∈ m.info.free ∨ t ∈ m.info.paid then
    if t ∈ VALID_TYPES then
      let st0 := if t ∈ m.info.free then "active" else if hasKey then "active" else "locked"
      let st := if st0 = "active" ∧ !runtimeReady then "locked" else st0
      some { name := m.name, status := st, apiKey := m.info.apiKey,
             returns := m.info.returns, reason := rReason }
    else none
  else none

/-- get_capabilities restricted to one target type: the per-type list in
module-scan order. -/
def getCapabilitiesFor (keyLookup : String → Option String)
    (mods : List ScannedModule) (t : String) : List CapEntry :=
  mods.filterMap (capEntryFor keyLookup t)

/-- XsintEngine.__init__ (xsint/core.py lines 46-50): the per-module
timeout is max(5, int(env)) where env is the XSINT_MODULE_TIMEOUT
environment variable (default "25"), falling back to 25 when int() raises
ValueError. -/
def moduleTimeoutOf (env : Option String) : Int :=
  let raw := pyStrip (env.getD "25")
  match pyParseInt raw with
  | some v => max 5 v
  | none => 25

/-- The outcome value _run_module_with_progress hands back to scan: the
run function's return value, or the exception object it raised. -/
inductive ModResult where
  | val (status : Int) (data : List Finding)
  | other
  | exc (msg : String)
  deriving DecidableEq, Repr

/-- The synthetic finding produced on a per-module timeout
(xsint/core.py lines 370-380). -/
def timeoutFinding (name : String) (timeoutSecs : Int) : Finding :=
  { label := "Timeout",
    value := "Module timed out after " ++ toString timeoutSecs ++ "s",
    source := name,
    risk := "medium" }

/-- The finding scan builds for a module whose execution raised
(xsint/core.py lines 313-321). -/
def errorFinding (name msg : String) : Finding :=
  { label := "Error", value := msg, source := name, risk := "high" }

/-- XsintEngine._run_module_with_progress (xsint/core.py lines 345-389):
emit module_start, await the run function under the per-module timeout,
and convert the three terminations into data: a normal result is passed
through, a timeout becomes a (1, [Timeout finding]) tuple, and an
exception is returned as a value (never re-raised). -/
def runModuleWithProgress (timeoutSecs : Int) (cb : Option ProgressCb)
    (m : ScannedModule) : String × ModResult :=
  let _ := emitProgress cb ⟨"module_start", [("module", .str m.name)]⟩
  match m.behavior with
  | .val s d =>
    let _ := emitProgress cb ⟨"module_done", [("module", .str m.name), ("status", .str "ok")]⟩
    (m.name, .val s d)
  | .other =>
    let _ := emitProgress cb ⟨"module_done", [("module", .str m.name), ("status", .str "ok")]⟩
    (m.name, .other)
  | .timedOut =>
    let _ := emitProgress cb
      ⟨"module_done", [("module", .str m.name), ("status", .str "timeout"),
        ("error", .str ("timeout after " ++ toString timeoutSecs ++ "s"))]⟩
    (m.name, .val 1 [timeoutFinding m.name timeoutSecs])
  | .exc e =>
    let _ := emitProgress cb
      ⟨"module_done", [("module", .str m.name), ("status", .str "error"), ("error", .str e)]⟩
    (m.name, .exc e)

/-- The result-collection loop of scan (xsint/core.py lines 311-327):
an exception value becomes a high-risk Error finding, a (status, list)
tuple contributes its list, anything else contributes nothing; order is
the gather order of the launched tasks. -/
def flattenOutcomes (results : List (String × ModResult)) : List Finding :=
  results.foldl
    (fun acc r =>
      match r.2 with
      | .exc e => acc ++ [errorFinding r.1 e]
      | .val _ d => acc ++ d
      | .other => acc)
    []

/-- The aggregation step of scan: collect all module outcomes and filter
the sentinel (xsint/core.py lines 311-329). -/
def aggregateOutcomes (results : List (String × ModResult)) : List Finding :=
  filterSentinel (flattenOutcomes results)

/-- The result dict of XsintEngine.scan. -/
structure ScanResult where
  type : String
  results : List Finding
  themes : List (String × String)
  error : Option String
  deriving DecidableEq, Repr

/-- The actionable message returned when classification is ambiguous
(xsint/core.py lines 250-264). -/
def ambiguousMsg : String :=
  "Could not determine target type.\n" ++
  "Please use a prefix to be specific:\n" ++
  "  - email:test@test.com\n" ++
  "  - user:admin\n" ++
  "  - phone:+14155551234\n" ++
  "  - ip:1.1.1.1\n" ++
  "  - addr:Tokyo\n" ++
  "  - name:John Doe\n" ++
  "  - id:1234567890\n" ++
  "  - ssn:123-45-6789\n" ++
  "  - passport:AB1234567\n" ++
  "  - hash:5f4dcc3b"

/-- The placeholder result when no module applies (xsint/core.py
lines 280-292). -/
def noModulesFinding : Finding :=
  { label := "Status", value := "No modules found", source := "System", risk := "low" }

/-- XsintEngine.scan (xsint/core.py lines 234-343).  The target-type
detection (parser.detect_target_type) is passed in as a function; the
scanned module list stands for the modules directory; keyLookup stands
for the configured API keys.  Progress events are emitted through
emitProgress, whose try/except discards any exception the callback
raises. -/
def scanE (detect : String → Option String × String)
    (keyLookup : String → Option String) (timeoutSecs : Int)
    (mods : List ScannedModule) (target : String)
    (cb : Option ProgressCb) : ScanResult :=
  let starget := pyStrip target
  let _ := emitProgress cb ⟨"detect_start", [("target", .str starget)]⟩
  match detect starget with
  | (none, _) =>
    let _ := emitProgress cb ⟨"detect_done", [("target_type", .str ""), ("target", .str "")]⟩
    let _ := emitProgress cb ⟨"scan_done", [("status", .str "aborted")]⟩
    { type := "AMBIGUOUS", results := [], themes := [], error := some ambiguousMsg }
  | (some targetType, cleanTarget) =>
    let _ := emitProgress cb
      ⟨"detect_done", [("target_type", .str targetType), ("target", .str cleanTarget)]⟩
    let loaded := loadModulesForType keyLookup mods targetType
    let _ := emitProgress cb
      ⟨"modules_loaded",
        [("target_type", .str targetType), ("count", .num loaded.1.length),
         ("modules", .strs (loaded.1.map ScannedModule.name)), ("skipped", .pairs loaded.2)]⟩
    if loaded.1 = [] then
      let _ := emitProgress cb
        ⟨"scan_done", [("status", .str "completed"), ("findings", .num 1), ("modules", .num 0)]⟩
      { type := targetType, results := [noModulesFinding], themes := [], error := none }
    else
      let collectedThemes := loaded.1.foldl
        (fun acc m =>
          match m.info.themes with
          | some th => dupdate acc th
          | none => acc)
        []
      let moduleResults := loaded.1.map (runModuleWithProgress timeoutSecs cb)
      let finalData := aggregateOutcomes moduleResults
      let _ := emitProgress cb
        ⟨"scan_done", [("status", .str "completed"), ("findings", .num finalData.length),
          ("modules", .num moduleResults.length)]⟩
      { type := targetType, results := finalData, themes := collectedThemes, error := none }

end Xsint

namespace Registry

open Kiss

/-! ## PluginRegistry (src/kiss/plugins/registry.py) -/

/-- The metadata a plugin class reports.  Modelled from the spec:
PluginMetadata lives in kiss/plugins/base.py, which is not under src/;
the spec's PluginDescriptor (section 3) gives it a unique name key, a
display name and a category. -/
structure PluginMeta where
  name : String
  displayName : String := ""
  category : String := ""
  deriving DecidableEq, Repr

/-- A plugin class as the registry sees it: get_metadata() either returns
metadata or raises (modelled as none).  The tag distinguishes distinct
classes that may share a metadata name. -/
structure PluginClass where
  meta : Option PluginMeta
  tag : Nat := 0
  deriving DecidableEq, Repr

/-- PluginRegistry.register (registry.py lines 152-167): insert the class
into the name-keyed map (last write wins); a class whose get_metadata
raises is skipped. -/
def register (regMap : List (String × PluginClass)) (p : PluginClass) :
    List (String × PluginClass) :=
  match p.meta with
  | some md => dinsert regMap md.name p
  | none => regMap

/-- Register a sequence of plugin classes into an empty registry, in
order, as discovery does. -/
def registerAll (ps : List PluginClass) : List (String × PluginClass) :=
  ps.foldl register []

/-- PluginRegistry.get_all (registry.py lines 194-200): a copy of the
name-keyed map. -/
def getAll (regMap : List (String × PluginClass)) : List (String × PluginClass) :=
  regMap

/-- The plugins of a registration sequence that carry a given metadata
name, in registration order. -/
def namedIn (ps : List PluginClass) (n : String) : List PluginClass :=
  ps.filter (fun p => match p.meta with
    | some md => md.name = n
    | none => false)

end Registry

namespace Detect

open Kiss

/-! ## Input type detectors (src/kiss/scanner/detectors.py) -/

/-- Prefix test on character lists (str.startswith). -/
def startsWithL (pre l : List Char) : Bool := decide (l.take pre.length = pre)

/-- Numeric value of a digit run. -/
def octVal (l : List Char) : Nat := l.foldl (fun acc c => 10 * acc + digitVal c) 0

/-- One octet as accepted by Python ipaddress IPv4Address._parse_octet:
one to three ASCII digits, no leading zero unless the octet is "0",
value at most 255. -/
def pyOctet (l : List Char) : Bool :=
  decide (1 ≤ l.length) && decide (l.length ≤ 3) && l.all isDigitB &&
  (decide (l.length = 1) || decide (l.head?.getD ' ' ≠ '0')) && decide (octVal l ≤ 255)

/-- Python ipaddress IPv4Address string parsing: exactly four
dot-separated octets. -/
def pyIPv4 (l : List Char) : Bool :=
  let parts := splitBy '.' l
  decide (parts.length = 4) && parts.all pyOctet

/-- One IPv6 hextet: one to four hex digits. -/
def hextet (g : List Char) : Bool :=
  decide (1 ≤ g.length) && decide (g.length ≤ 4) && g.all isHexB

/-- Python ipaddress IPv6Address._ip_int_from_string on the address part
(scope id already removed): split on colons, expand a trailing IPv4
quad into two hextets, allow at most one run of compressed zeros. -/
def pyIPv6Core (l : List Char) : Bool :=
  let parts0 := splitBy ':' l
  if parts0.length < 3 then false
  else
    let conv : Option (List (List Char)) :=
      match parts0.getLast? with
      | some lastP =>
        if '.' ∈ lastP then
          if pyIPv4 lastP then some (parts0.dropLast ++ [['0'], ['0']]) else none
        else some parts0
      | none => none
    match conv with
    | none => false
    | some parts =>
      if parts.length > 9 then false
      else
        let mid := (parts.drop 1).dropLast
        let empties := mid.countP (fun p => decide (p = []))
        if empties > 1 then false
        else if empties = 1 then
          let skipIdx := (mid.findIdx (fun p => decide (p = []))) + 1
          let hiParts := parts.take skipIdx
          let loParts := parts.drop (skipIdx + 1)
          let hiOk := if hiParts.head? = some ([] : List Char) then
              decide (hiParts = [[]]) else hiParts.all hextet
          let loOk := if loParts.getLast? = some ([] : List Char) then
              decide (loParts = [[]]) else loParts.all hextet
          let hiCnt := if hiParts.head? = some ([] : List Char) then 0 else hiParts.length
          let loCnt := if loParts.getLast? = some ([] : List Char) then 0 else loParts.length
          hiOk && loOk && decide (hiCnt + loCnt ≤ 7)
        else
          decide (parts.length = 8) && parts.all hextet

/-- Python ipaddress IPv6Address string parsing including the optional
%scope suffix (at most one percent sign, nonempty scope). -/
def pyIPv6 (l : List Char) : Bool :=
  match splitBy '%' l with
  | [addr] => pyIPv6Core addr
  | [addr, zone] => if zone = [] then false else pyIPv6Core addr
  | _ => false

/-- detectors.is_ip_address: ipaddress.ip_address succeeds on IPv4 or
IPv6 input. -/
def is_ip_address (l : List Char) : Bool := pyIPv4 l || pyIPv6 l

/-- The local-part class of INPUT_PATTERNS email: [a-zA-Z0-9._%+-]. -/
def isLocalChar (c : Char) : Bool :=
  isAlnumB c || c = '.' || c = '_' || c = '%' || c = '+' || c = '-'

/-- The domain class of INPUT_PATTERNS email: [a-zA-Z0-9.-]. -/
def isDomChar (c : Char) : Bool := isAlnumB c || c = '.' || c = '-'

/-- The domain side of the email pattern: [a-zA-Z0-9.-]+ then a literal
dot then at least two letters, to the end.  Because letters and the dot
are themselves in the class, this holds exactly when the whole domain is
in the class and the segment after the last dot is all-alphabetic of
length at least two with a nonempty part before that dot. -/
def emailDomOk (dom : List Char) : Bool :=
  dom.all isDomChar &&
  (let parts := splitBy '.' dom
   decide (2 ≤ parts.length) &&
   (match parts.getLast? with
    | some lastP =>
      decide (2 ≤ lastP.length) && lastP.all isAlphaB &&
      decide (lastP.length + 2 ≤ dom.length)
    | none => false))

/-- INPUT_PATTERNS email, anchored at both ends.  The classes on both
sides of the at sign exclude the at sign, so a match splits the string at
its unique at sign. -/
def matchEmail (l : List Char) : Bool :=
  match splitBy '@' l with
  | [loc, dom] => decide (loc ≠ []) && loc.all isLocalChar && emailDomOk dom
  | _ => false

/-- detectors.is_email. -/
def is_email (l : List Char) : Bool := matchEmail l

/-- The class of INPUT_PATTERNS phone: digits, whitespace, dash and
parentheses. -/
def isPhoneClass (c : Char) : Bool :=
  isDigitB c || pyWS c || c = '-' || c = '(' || c = ')'

/-- INPUT_PATTERNS phone: an optional leading plus sign followed by at
least ten characters of the phone class, anchored at both ends. -/
def matchPhoneRe (l : List Char) : Bool :=
  match l with
  | '+' :: rest => decide (10 ≤ rest.length) && rest.all isPhoneClass
  | _ => decide (10 ≤ l.length) && l.all isPhoneClass

/-- detectors.is_phone_number: strip everything but digits and plus
signs; require at least ten characters remaining, and the pattern on the
original string. -/
def is_phone_number (l : List Char) : Bool :=
  let cleaned := l.filter (fun c => isDigitB c || c = '+')
  decide (10 ≤ cleaned.length) && matchPhoneRe l

/-- The username class [a-zA-Z0-9_-]. -/
def isUserChar (c : Char) : Bool := isAlnumB c || c = '_' || c = '-'

/-- detectors.is_username: strip leading at signs, require length 3 to
30, only username-class characters, and not all digits. -/
def is_username (l : List Char) : Bool :=
  let u := l.dropWhile (fun c => c = '@')
  decide (3 ≤ u.length) && decide (u.length ≤ 30) && u.all isUserChar &&
    !(decide (u ≠ []) && u.all isDigitB)

/-- Five repetitions of two hex digits plus separator, then a final pair:
INPUT_PATTERNS bssid, with colon or dash separators (they may be mixed
since the class is per-group). -/
def bssidGo : Nat → List Char → Bool
  | 0, [a, b] => isHexB a && isHexB b
  | n + 1, a :: b :: s :: rest =>
    isHexB a && isHexB b && (s = ':' || s = '-') && bssidGo n rest
  | _, _ => false

def matchBssidRe (l : List Char) : Bool := bssidGo 5 l

/-- detectors.is_bssid: take the part before a pipe (stripped) when one
is present, then accept either the separated pattern or a bare run of
twelve hex digits. -/
def is_bssid (l : List Char) : Bool :=
  let b := if '|' ∈ l then pyStripL ((splitBy '|' l).headI) else l
  matchBssidRe b || (decide (b.length = 12) && b.all isHexB)

/-- One label of INPUT_PATTERNS domain:
[a-zA-Z0-9][a-zA-Z0-9-]{0,61}[a-zA-Z0-9], so length 2 to 63 with
alphanumeric first and last characters and alphanumeric-or-dash middle. -/
def labelRe (g : List Char) : Bool :=
  decide (2 ≤ g.length) && decide (g.length ≤ 63) &&
  (match g.head?, g.getLast? with
   | some a, some b => isAlnumB a && isAlnumB b
   | _, _ => false) &&
  ((g.drop 1).dropLast.all (fun c => isAlnumB c || c = '-'))

/-- INPUT_PATTERNS domain: dot-separated labels, each matching labelRe. -/
def matchDomainRe (l : List Char) : Bool :=
  (splitBy '.' l).all labelRe

/-- The guard re.match(backslash-d+ dot backslash-d+) from is_domain: the
string starts with a digit run, a dot, and another digit. -/
def startsDigitsDot (l : List Char) : Bool :=
  let ds := l.takeWhile isDigitB
  decide (ds ≠ []) &&
  (match l.drop ds.length with
   | '.' :: c :: _ => isDigitB c
   | _ => false)

/-- detectors.is_domain: needs a dot, no at sign, must not look like the
start of an IP, must match the domain pattern, and the TLD (text after
the last dot) must be alphabetic of length 2 to 10. -/
def is_domain (l : List Char) : Bool :=
  decide ('.' ∈ l) && !(decide ('@' ∈ l)) && !(startsDigitsDot l) && matchDomainRe l &&
  (match (splitBy '.' l).getLast? with
   | some tld =>
     decide (2 ≤ tld.length) && decide (tld.length ≤ 10) && tld.all isAlphaB
   | none => false)

/-- Word-character test at an index, out-of-range counting as non-word. -/
def wordAtB (l : List Char) (i : Nat) : Bool :=
  match l.get? i with
  | some c => isWordB c
  | none => false

/-- The regex word boundary at position e of l. -/
def boundB (l : List Char) (e : Nat) : Bool :=
  if e = 0 then wordAtB l 0 else wordAtB l (e - 1) != wordAtB l e

/-- The body class [A-Za-z0-9 whitespace] of the first address
indicator. -/
def isAddrBody (c : Char) : Bool := isAlnumB c || pyWS c

/-- re.search of the first address indicator (word boundary, digits,
whitespace, alphanumerics-or-whitespace, word boundary).  The digit run
is forced maximal; the whitespace run and the body trade freely, so a
match exists exactly when after the maximal digit run there is one
whitespace character and then a nonempty body-class segment ending at a
word boundary. -/
def searchAddrNum (l : List Char) : Bool :=
  (List.range (l.length + 1)).any (fun i =>
    boundB l i &&
    (let ds := (l.drop i).takeWhile isDigitB
     decide (ds ≠ []) &&
     (let p0 := i + ds.length
      match l.get? p0 with
      | some c0 =>
        pyWS c0 &&
        ((List.range (l.length + 1)).any (fun e =>
          decide (p0 + 1 < e) && decide (e ≤ l.length) &&
          ((l.drop (p0 + 1)).take (e - p0 - 1)).all isAddrBody &&
          boundB l e))
      | none => false)))

/-- re.search of a word-bounded keyword alternative. -/
def searchKw (kws : List (List Char)) (l : List Char) : Bool :=
  (List.range (l.length + 1)).any (fun i =>
    kws.any (fun kw =>
      decide ((l.drop i).take kw.length = kw) && boundB l i && boundB l (i + kw.length)))

def streetKws : List (List Char) :=
  (["st", "street", "ave", "avenue", "rd", "road", "blvd", "boulevard", "dr",
    "drive", "ct", "court", "ln", "lane", "way", "pl", "place"]).map String.data

def cityKws : List (List Char) := (["city", "town", "village"]).map String.data

def isAlphaWS (c : Char) : Bool := isAlphaB c || pyWS c

/-- re.search of the fourth address indicator: a comma, optional
whitespace, a nonempty letters-or-whitespace segment, then exactly five
digits (the lazily quantified {5} still requires five). -/
def searchCityStateZip (l : List Char) : Bool :=
  (List.range (l.length + 1)).any (fun i =>
    decide (l.get? i = some ',') &&
    ((List.range (l.length + 1)).any (fun e =>
      decide (i + 1 < e) && decide (e ≤ l.length) &&
      ((l.drop (i + 1)).take (e - i - 1)).all isAlphaWS &&
      decide (5 ≤ (l.drop e).length) && ((l.drop e).take 5).all isDigitB)))

/-- detectors.is_address: at least two of the four indicator patterns
match the lower-cased text. -/
def is_address (l : List Char) : Bool :=
  let low := lowerL l
  let cnt := (if searchAddrNum low then 1 else 0) + (if searchKw streetKws low then 1 else 0)
    + (if searchKw cityKws low then 1 else 0) + (if searchCityStateZip low then 1 else 0)
  decide (2 ≤ cnt)

/-- The bcrypt check of detect_hash_type: re.match of dollar, 2, an
optional a b or y, dollar, two digits, dollar (a prefix match). -/
def bcryptFullPre (h : List Char) : Bool :=
  match h with
  | '$' :: '2' :: rest =>
    let rest2 := match rest with
      | c :: r => if c = 'a' || c = 'b' || c = 'y' then r else c :: r
      | [] => []
    match rest2 with
    | '$' :: d1 :: d2 :: '$' :: _ => isDigitB d1 && isDigitB d2
    | _ => false
  | _ => false

/-- The hex-run test of detect_hash_type on the lowered string. -/
def hexRun (h : List Char) : Bool := decide (h ≠ []) && h.all isHexLower

/-- The shape tests of detect_hash_type applied to the stripped,
lower-cased string. -/
def detect_hash_core (h : List Char) : Option String :=
  if h.length = 32 && hexRun h then some "MD5"
  else if h.length = 40 && hexRun h then some "SHA1"
  else if h.length = 56 && hexRun h then some "SHA224"
  else if h.length = 64 && hexRun h then some "SHA256"
  else if h.length = 96 && hexRun h then some "SHA384"
  else if h.length = 128 && hexRun h then some "SHA512"
  else if h.length = 32 && hexRun h then some "NTLM"
  else if h.length = 41 &&
      (decide (h.head? = some '*') &&
        (decide (h.drop 1 ≠ []) && (h.drop 1).all isHexLower)) then some "MySQL 4.1+"
  else if h.length = 60 && bcryptFullPre h then some "bcrypt"
  else if startsWithL ['$', 'a', 'r', 'g', 'o', 'n', '2'] h then some "Argon2"
  else none

/-- detectors.detect_hash_type (detectors.py lines 245-302): strip and
lower-case, then test each shape in order.  The NTLM branch is kept from
the source even though the MD5 branch shadows it. -/
def detect_hash_type (l0 : List Char) : Option String :=
  detect_hash_core (lowerL (pyStripL l0))

/-- detectors.detect_input_type (detectors.py lines 13-61): strip, then
try IP, BSSID, hash, email, phone, domain, username, address in order. -/
def detect_input_type (s : String) : Option String :=
  if s.data = [] then none
  else
    let l := pyStripL s.data
    if is_ip_address l then some "IP"
    else if is_bssid l then some "WIFI"
    else if (detect_hash_type l).isSome then some "HASH"
    else if is_email l then some "EMAIL"
    else if is_phone_number l then some "PHONE"
    else if is_domain l then some "DOMAIN"
    else if is_username l then some "USERNAME"
    else if is_address l then some "ADDRESS"
    else none

end Detect

namespace QP

open Kiss

/-! ## QueryParser (src/kiss/query_parser.py) -/

/-- One octet group of INPUT_PATTERNS ip:
25[0-5] or 2[0-4][0-9] or [01]?[0-9][0-9]?. -/
def isOctetRe (g : List Char) : Bool :=
  match g with
  | [a] => isDigitB a
  | [a, b] => isDigitB a && isDigitB b
  | [a, b, c] =>
    (a = '2' && b = '5' && ('0' ≤ c && c ≤ '5')) ||
    (a = '2' && ('0' ≤ b && b ≤ '4') && isDigitB c) ||
    ((a = '0' || a = '1') && isDigitB b && isDigitB c)
  | _ => false

/-- INPUT_PATTERNS ip: four dot-separated octet groups, anchored at both
ends.  Octet groups contain no dots, so the regex aligns with the
dot-split of the string. -/
def matchIPre (l : List Char) : Bool :=
  let parts := splitBy '.' l
  decide (parts.length = 4) && parts.all isOctetRe

/-- The loose bcrypt arm of the hash validator:
dollar 2, optional a b or y, dollar, then at least one non-newline
character (the dot of the regex). -/
def bcryptLoosePre (l : List Char) : Bool :=
  match l with
  | '$' :: '2' :: rest =>
    let rest2 := match rest with
      | c :: r => if c = 'a' || c = 'b' || c = 'y' then r else c :: r
      | [] => []
    match rest2 with
    | '$' :: c :: _ => decide (c ≠ '\n')
    | _ => false
  | _ => false

/-- detect type step: the prefix-only bcrypt pattern of _detect_type:
dollar 2, optional a b or y, dollar. -/
def bcryptShortPre (l : List Char) : Bool :=
  match l with
  | '$' :: '2' :: rest =>
    match (match rest with
           | c :: r => if c = 'a' || c = 'b' || c = 'y' then r else c :: r
           | [] => []) with
    | '$' :: _ => true
    | _ => false
  | _ => false

/-- The FIELD_VALIDATORS hash pattern: 32 to 128 hex characters anchored
at both ends, or a loose bcrypt prefix, or an Argon2 prefix. -/
def hashValidator (l : List Char) : Bool :=
  (decide (32 ≤ l.length) && decide (l.length ≤ 128) && l.all isHexB) ||
  bcryptLoosePre l ||
  Detect.startsWithL ['$', 'a', 'r', 'g', 'o', 'n', '2'] l

/-- QueryParser.FIELD_SCAN_TYPES (query_parser.py lines 47-72). -/
def FIELD_SCAN_TYPES : List (String × String) :=
  [("email", "EMAIL"), ("mail", "EMAIL"), ("e-mail", "EMAIL"),
   ("ip", "IP"), ("ipv4", "IP"), ("ipv6", "IP"),
   ("address", "ADDRESS"), ("addr", "ADDRESS"), ("location", "ADDRESS"),
   ("phone", "PHONE"), ("tel", "PHONE"), ("mobile", "PHONE"),
   ("username", "USERNAME"), ("user", "USERNAME"), ("handle", "USERNAME"),
   ("hash", "HASH"), ("password", "HASH"), ("pwd", "HASH"),
   ("domain", "DOMAIN"),
   ("bssid", "WIFI"), ("ssid", "WIFI"), ("wifi", "WIFI"), ("mac", "WIFI"),
   ("name", "NAME")]

/-- QueryParser._get_canonical_field (query_parser.py lines 222-240). -/
def canonMap : List (String × String) :=
  [("mail", "email"), ("e-mail", "email"), ("ipv4", "ip"), ("ipv6", "ip"),
   ("addr", "address"), ("location", "address"), ("tel", "phone"),
   ("mobile", "phone"), ("user", "username"), ("handle", "username"),
   ("password", "hash"), ("pwd", "hash"), ("wifi", "bssid"), ("mac", "bssid")]

def canonicalOf (f : String) : String :=
  match dlookup canonMap f with
  | some c => c
  | none => f

/-- QueryParser.FIELD_VALIDATORS (query_parser.py lines 75-82), keyed by
canonical field name. -/
def validatorFor (canonical : String) : Option (List Char → Bool) :=
  if canonical = "email" then some Detect.matchEmail
  else if canonical = "ip" then some matchIPre
  else if canonical = "phone" then some Detect.matchPhoneRe
  else if canonical = "bssid" then some Detect.matchBssidRe
  else if canonical = "hash" then some hashValidator
  else if canonical = "domain" then some Detect.matchDomainRe
  else none

/-- One match of the field pattern
(word+) colon whitespace* (double-quoted | single-quoted | bareword),
with the three value groups. -/
structure FieldMatch where
  fieldRaw : List Char
  g2 : List Char
  g3 : List Char
  g4 : List Char
  deriving DecidableEq, Repr

/-- The bareword arm of the field pattern: a maximal nonempty run of
non-whitespace characters. -/
def bareFrom (w r3 : List Char) : Option (FieldMatch × List Char) :=
  let b := r3.takeWhile (fun c => !pyWS c)
  if b = [] then none
  else some ({ fieldRaw := w, g2 := [], g3 := [], g4 := b }, r3.drop b.length)

/-- The double-quoted arm of the field pattern: nonempty content up to a
closing double quote, else fall through to the bareword arm on r3. -/
def dquotedFrom (w r3 r4 : List Char) : Option (FieldMatch × List Char) :=
  let content := r4.takeWhile (fun c => c ≠ '"')
  if content ≠ [] ∧ (r4.drop content.length).head? = some '"' then
    some ({ fieldRaw := w, g2 := content, g3 := [], g4 := [] },
          r4.drop (content.length + 1))
  else bareFrom w r3

/-- The single-quoted arm of the field pattern. -/
def squotedFrom (w r3 r4 : List Char) : Option (FieldMatch × List Char) :=
  let content := r4.takeWhile (fun c => c ≠ '\'')
  if content ≠ [] ∧ (r4.drop content.length).head? = some '\'' then
    some ({ fieldRaw := w, g2 := [], g3 := content, g4 := [] },
          r4.drop (content.length + 1))
  else bareFrom w r3

/-- Try the field pattern anchored at the head of l; on success return
the match and the remaining suffix.  The word run is forced maximal
(a shorter run would be followed by a word character, not a colon); the
quoted arms require a nonempty content and a closing quote, falling back
to the bareword arm otherwise, exactly as the regex alternation does. -/
def tryFieldAt (l : List Char) : Option (FieldMatch × List Char) :=
  let w := l.takeWhile isWordB
  if w = [] then none
  else
    match l.drop w.length with
    | c :: r2 =>
      if c = ':' then
        match r2.dropWhile pyWS with
        | c2 :: r4 =>
          if c2 = '"' then dquotedFrom w (c2 :: r4) r4
          else if c2 = '\'' then squotedFrom w (c2 :: r4) r4
          else bareFrom w (c2 :: r4)
        | [] => none
      else none
    | [] => none

/-- re.findall of the field pattern: scan left to right, taking the
leftmost match at each point and continuing after its end.  Fuel-driven;
the initial fuel covers the whole string since every step advances. -/
def findFieldsGo : Nat → List Char → List FieldMatch
  | 0, _ => []
  | _, [] => []
  | fuel + 1, c :: rest =>
    match tryFieldAt (c :: rest) with
    | some (fm, remaining) => fm :: findFieldsGo fuel remaining
    | none => findFieldsGo fuel rest

def findFields (l : List Char) : List FieldMatch := findFieldsGo (l.length + 1) l

/-- re.search of the field pattern: the first match, if any. -/
def firstFieldName (l : List Char) : Option (List Char) :=
  (findFields l).head?.map FieldMatch.fieldRaw

/-- The dash-only BSSID pattern checked by _is_structured_query. -/
def bssidGoDash : Nat → List Char → Bool
  | 0, [a, b] => isHexB a && isHexB b
  | n + 1, a :: b :: s :: rest =>
    isHexB a && isHexB b && s = '-' && bssidGoDash n rest
  | _, _ => false

def bssidDashRe (l : List Char) : Bool := bssidGoDash 5 l

/-- QueryParser._is_structured_query (query_parser.py lines 116-140):
not a bare BSSID (colon-dash or dash-only form), not a BSSID before a
pipe, and the first field-pattern match has a recognised field name. -/
def isStructuredQueryL (l : List Char) : Bool :=
  if Detect.matchBssidRe (pyStripL l) then false
  else if bssidDashRe (pyStripL l) then false
  else if '|' ∈ l ∧ Detect.matchBssidRe (pyStripL ((splitBy '|' l).headI)) then false
  else
    match firstFieldName l with
    | some w => FIELD_SCAN_TYPES.any (fun p => p.1 = String.mk (lowerL w))
    | none => false

/-- The ParsedQuery dataclass (query_parser.py lines 20-37). -/
structure ParsedQuery where
  raw_query : String
  query_type : String
  scan_type : Option String := none
  primary_target : String := ""
  fields : List (String × String) := []
  errors : List String := []
  is_valid : Bool := true
  deriving DecidableEq, Repr

/-- QueryParser._detect_type (query_parser.py lines 268-324): the
parser's own fallback detection for simple queries. -/
def detectTypeSimple (s : String) : Option String :=
  let t := pyStripL s.data
  if Detect.matchEmail t then some "EMAIL"
  else if matchIPre t then some "IP"
  else if Detect.matchPhoneRe t then some "PHONE"
  else if Detect.matchBssidRe t then some "WIFI"
  else if '|' ∈ t ∧ Detect.matchBssidRe (pyStripL ((splitBy '|' t).headI)) then some "WIFI"
  else if decide (t.length = 32) && t.all isHexB then some "HASH"
  else if decide (t.length = 40) && t.all isHexB then some "HASH"
  else if decide (t.length = 64) && t.all isHexB then some "HASH"
  else if bcryptShortPre t then some "HASH"
  else if t.head? = some '@' then some "USERNAME"
  else if t.head? = some '"' ∧ t.getLast? = some '"' then some "ADDRESS"
  else if ',' ∈ t ∧ decide (20 < t.length) then some "ADDRESS"
  else if Detect.matchDomainRe t && t.contains '.' && !(t.contains '@') &&
      !(match t.head? with | some c => isDigitB c | none => false) then some "DOMAIN"
  else if decide (3 ≤ t.length) && decide (t.length ≤ 30) &&
      t.all (fun c => isWordB c || c = '-' || c = '.') then some "USERNAME"
  else none

/-- QueryParser._parse_simple (query_parser.py lines 142-158). -/
def parseSimple (q : String) : ParsedQuery :=
  let st := detectTypeSimple q
  { raw_query := q, query_type := "simple", primary_target := q, scan_type := st,
    errors := if st.isNone then ["Could not determine query type for: " ++ q] else [],
    is_valid := st.isSome }

/-- The value of a field match: first nonempty of the double-quoted,
single-quoted, bareword groups (Python's or-chain). -/
def matchValue (m : FieldMatch) : List Char :=
  if m.g2 ≠ [] then m.g2 else if m.g3 ≠ [] then m.g3 else m.g4

/-- The scan type a match contributes, when its field is recognised and
its value nonempty. -/
def matchScanType (m : FieldMatch) : Option String :=
  if matchValue m = [] then none
  else dlookup FIELD_SCAN_TYPES (String.mk (lowerL m.fieldRaw))

/-- The per-match state transition of the _parse_structured loop
(query_parser.py lines 177-203). -/
structure PSState where
  fields : List (String × String)
  errors : List String
  types : List String
  deriving DecidableEq, Repr

def stepMatch (st : PSState) (m : FieldMatch) : PSState :=
  let fieldName := String.mk (lowerL m.fieldRaw)
  let value := matchValue m
  if value = [] then
    { st with errors := st.errors ++ ["Empty value for field: " ++ fieldName] }
  else
    match dlookup FIELD_SCAN_TYPES fieldName with
    | some scanType =>
      let types := st.types ++ [scanType]
      let fields := dinsert st.fields fieldName (String.mk value)
      match validatorFor (canonicalOf fieldName) with
      | some v =>
        if v value then { fields := fields, errors := st.errors, types := types }
        else { fields := fields, types := types,
               errors := st.errors ++
                 ["Invalid format for " ++ fieldName ++ ": " ++ String.mk value] }
      | none => { fields := fields, errors := st.errors, types := types }
    | none => { st with errors := st.errors ++ ["Unknown field: " ++ fieldName] }

/-- The fixed priority list of _parse_structured (query_parser.py
line 208). -/
def SCAN_PRIORITY : List String :=
  ["EMAIL", "IP", "PHONE", "WIFI", "USERNAME", "ADDRESS", "HASH", "DOMAIN", "NAME"]

/-- The per-type preferred-field table of _get_primary_target
(query_parser.py lines 245-255). -/
def typeToFieldTable : List (String × List String) :=
  [("EMAIL", ["email", "mail", "e-mail"]),
   ("IP", ["ip", "ipv4", "ipv6"]),
   ("PHONE", ["phone", "tel", "mobile"]),
   ("USERNAME", ["username", "user", "handle"]),
   ("ADDRESS", ["address", "addr", "location"]),
   ("HASH", ["hash", "password", "pwd"]),
   ("DOMAIN", ["domain"]),
   ("WIFI", ["bssid", "ssid", "wifi", "mac"]),
   ("NAME", ["name"])]

/-- QueryParser._get_primary_target (query_parser.py lines 242-266):
the value of the first preferred field of the winning type present in
the fields dict, else the first stored field value, else empty. -/
def getPrimaryTarget (scanType : Option String) (fields : List (String × String)) : String :=
  let fromPref : Option String :=
    match scanType with
    | some st =>
      match dlookup typeToFieldTable st with
      | some prefList => prefList.findSome? (fun f => dlookup fields f)
      | none => none
    | none => none
  match fromPref with
  | some v => v
  | none =>
    match fields.head? with
    | some p => p.2
    | none => ""

/-- QueryParser._parse_structured (query_parser.py lines 160-220). -/
def parseStructuredQ (q : String) : ParsedQuery :=
  let fms := findFields q.data
  if fms = [] then
    { raw_query := q, query_type := "structured",
      errors := ["No valid field:value pairs found"], is_valid := false }
  else
    let st := fms.foldl stepMatch ⟨[], [], []⟩
    let scanType := if st.types = [] then none
      else SCAN_PRIORITY.find? (fun t => t ∈ st.types)
    let primary := if st.types = [] then "" else getPrimaryTarget scanType st.fields
    { raw_query := q, query_type := "structured", scan_type := scanType,
      primary_target := primary, fields := st.fields, errors := st.errors,
      is_valid := st.errors = [] }

/-- QueryParser.parse (query_parser.py lines 91-114): strip, reject the
empty query, then dispatch on the structured-query test. -/
def parseQuery (q0 : String) : ParsedQuery :=
  let q := pyStrip q0
  if q.data = [] then
    { raw_query := q, query_type := "simple", is_valid := false, errors := ["Empty query"] }
  else if isStructuredQueryL q.data then parseStructuredQ q
  else parseSimple q

/-- The scan types contributed by the recognised fields of a query, in
match order (the set the priority list is applied to). -/
def structTypesOf (q : String) : List String :=
  (findFields (pyStrip q).data).filterMap matchScanType

/-- The fields dict a structured parse accumulates. -/
def structFieldsOf (q : String) : List (String × String) :=
  ((findFields (pyStrip q).data).foldl stepMatch ⟨[], [], []⟩).fields

end QP

namespace Xsint

open Kiss

/-! ## Derived forms used to reason about the engine -/

/-- The runner selection of _load_modules_for_type for a single module:
some m when the module becomes a runner for the type. -/
def runnerSel (keyLookup : String → Option String) (targetType : String)
    (m : ScannedModule) : Option ScannedModule :=
  if targetType ∈ m.info.free ∨ targetType ∈ m.info.paid then
    if (m.info.paid.contains targetType && !m.info.free.contains targetType) &&
        (match m.info.apiKey with
         | some k => (keyLookup k).isNone
         | none => false) then none
    else if !m.importOk then none
    else if !m.ready then none
    else if m.hasRun then some m
    else none
  else none

/-- The skipped-report selection of _load_modules_for_type for a single
module. -/
def skipSel (keyLookup : String → Option String) (targetType : String)
    (m : ScannedModule) : Option (String × String) :=
  if targetType ∈ m.info.free ∨ targetType ∈ m.info.paid then
    if (m.info.paid.contains targetType && !m.info.free.contains targetType) &&
        (match m.info.apiKey with
         | some k => (keyLookup k).isNone
         | none => false) then none
    else if !m.importOk then none
    else if !m.ready then
      some (m.name, if m.readyReason = "" then "not configured" else m.readyReason)
    else none
  else none

/-- The per-outcome contribution of the result-collection loop. -/
def outcomeContrib (r : String × ModResult) : List Finding :=
  match r.2 with
  | .exc e => [errorFinding r.1 e]
  | .val _ d => d
  | .other => []

end Xsint

namespace Registry

/-- Whether a plugin class reports the given metadata name. -/
def isNamed (n : String) (p : PluginClass) : Bool :=
  match p.meta with
  | some md => md.name = n
  | none => false

end Registry

namespace Detect

open Kiss

/-- The hash shape of the amended claim C6, stated over the stripped,
lower-cased input: a hex string of length 32, 40, 56, 64, 96 or 128; or a
41-character string of a star followed by 40 hex characters (MySQL 4.1+);
or a 60-character bcrypt string whose prefix is dollar 2, optional a b or
y, dollar, two digits, dollar; or an Argon2 dollar-argon2 prefix. -/
def hashShapeCore (h : List Char) : Bool :=
  ((h.length = 32 || h.length = 40 || h.length = 56 || h.length = 64 ||
      h.length = 96 || h.length = 128) && (decide (h ≠ []) && h.all isHexLower)) ||
  (decide (h.length = 41) &&
    (decide (h.head? = some '*') && (h.drop 1).all isHexLower)) ||
  (decide (h.length = 60) && bcryptFullPre h) ||
  startsWithL ['$', 'a', 'r', 'g', 'o', 'n', '2'] h

/-- The amended claim shape on a raw input: stripped and lower-cased
first. -/
def hashShapeAmended (l : List Char) : Bool :=
  hashShapeCore (lowerL (pyStripL l))

/-- The hash shape exactly as claim C6 states it, over the stripped,
lower-cased input: a hex string of length 32, 40, 56, 64, 96 or 128, or a
bcrypt dollar-2-optional-aby-dollar prefix, or a dollar-argon2 prefix. -/
def hashShapeClaim (l : List Char) : Bool :=
  ((lowerL (pyStripL l)).length = 32 || (lowerL (pyStripL l)).length = 40 ||
    (lowerL (pyStripL l)).length = 56 || (lowerL (pyStripL l)).length = 64 ||
    (lowerL (pyStripL l)).length = 96 || (lowerL (pyStripL l)).length = 128) &&
      (decide ((lowerL (pyStripL l)) ≠ []) && (lowerL (pyStripL l)).all isHexLower) ||
  QP.bcryptShortPre (lowerL (pyStripL l)) ||
  startsWithL ['$', 'a', 'r', 'g', 'o', 'n', '2'] (lowerL (pyStripL l))

end Detect

namespace CX

open Kiss Xsint

/-! ## Concrete scenario data for counterexamples and witnesses -/

/-- A credential store with no keys configured. -/
def noKeyStore : String → Option String := fun _ => none

/-- A detector that resolves every target to the email type. -/
def emailDetect : String → Option String × String := fun t => (some "email", t)

/-- A finding a successful module reports. -/
def goodF : Finding :=
  { label := "Breach", value := "found@example.com", source := "m2", risk := "high" }

/-- A sentinel finding a successful module reports. -/
def sentF : Finding :=
  { label := "Status", value := "None found", source := "m2", risk := "low" }

/-- A module whose run raises an exception whose text is the sentinel. -/
def c1FailMod : ScannedModule :=
  { name := "m1", info := { free := ["email"] }, behavior := .exc "None found" }

/-- A module whose run succeeds with a real finding and a sentinel
finding. -/
def c1OkMod : ScannedModule :=
  { name := "m2", info := { free := ["email"] }, behavior := .val 1 [goodF, sentF] }

/-- A module listing the email type in both its free and its paid lists,
with a key requirement that is not configured. -/
def dupMod : ScannedModule :=
  { name := "dup", info := { free := ["email"], paid := ["email"], apiKey := some "k" } }

/-- A module that raises with an ordinary exception text. -/
def wFailMod : ScannedModule :=
  { name := "m1", info := { free := ["email"] }, behavior := .exc "boom" }

/-- A module that succeeds with one finding. -/
def wOkMod : ScannedModule :=
  { name := "m2", info := { free := ["email"] }, behavior := .val 1 [goodF] }

/-- A module that exceeds its timeout. -/
def wSlowMod : ScannedModule :=
  { name := "m3", info := { free := ["email"] }, behavior := .timedOut }

/-- The MySQL 4.1+ style string: a star followed by forty hex
characters. -/
def mysqlStr : String := String.mk ('*' :: List.replicate 40 'a')

end CX

/-! # Theorems -/

namespace Kiss

/-! ## Helper lemmas on the string primitives -/

theorem splitBy_ne_nil (sep : Char) (l : List Char) : splitBy sep l ≠ [] := by
  cases l with
  | nil => simp [splitBy]
  | cons c cs =>
    simp only [splitBy]
    cases h : splitBy sep cs with
    | nil => simp
    | cons p ps => by_cases hc : c = sep <;> simp [hc]

/-- Every character of a list is either the separator or belongs to one
of the parts produced by splitBy. -/
theorem splitBy_chars (sep : Char) (l : List Char) :
    ∀ c ∈ l, c = sep ∨ ∃ p ∈ splitBy sep l, c ∈ p := by
  induction l with
  | nil => intro c hc; cases hc
  | cons a as ih =>
    intro c hc
    simp only [splitBy]
    rcases List.mem_cons.mp hc with rfl | hmem
    · by_cases ha : c = sep
      · left; exact ha
      · right
        cases h : splitBy sep as with
        | nil => exact absurd h (splitBy_ne_nil sep as)
        | cons p ps =>
          refine ⟨c :: p, ?_, List.mem_cons_self _ _⟩
          simp [ha]
    · rcases ih c hmem with h | ⟨p, hp, hcp⟩
      · left; exact h
      · right
        cases h : splitBy sep as with
        | nil => exact absurd h (splitBy_ne_nil sep as)
        | cons q qs =>
          rw [h] at hp
          by_cases ha : a = sep
          · exact ⟨p, by simp [ha, hp], hcp⟩
          · rcases List.mem_cons.mp hp with rfl | hps
            · exact ⟨a :: p, by simp [ha], List.mem_cons_of_mem _ hcp⟩
            · exact ⟨p, by simp [ha, hps], hcp⟩

/-- If the separator does not occur, splitBy returns the whole list as
the single part. -/
theorem splitBy_eq_single {sep : Char} {l : List Char} (h : sep ∉ l) :
    splitBy sep l = [l] := by
  induction l with
  | nil => rfl
  | cons a as ih =>
    have ha : a ≠ sep := fun e => h (e ▸ List.mem_cons_self a as)
    have has : sep ∉ as := fun m => h (List.mem_cons_of_mem _ m)
    simp only [splitBy, ih has]
    simp [ha]

/-- Length accounting for splitBy: the original length plus one is the
sum of the part lengths plus the number of parts. -/
theorem splitBy_length (sep : Char) (l : List Char) :
    l.length + 1 = ((splitBy sep l).map List.length).sum + (splitBy sep l).length := by
  induction l with
  | nil => simp [splitBy]
  | cons a as ih =>
    simp only [splitBy]
    cases h : splitBy sep as with
    | nil => exact absurd h (splitBy_ne_nil sep as)
    | cons p ps =>
      rw [h] at ih
      by_cases ha : a = sep <;> simp [ha] <;> simp at ih <;> omega

theorem pyStripL_no_ws {l : List Char} (h : ∀ c ∈ l, pyWS c = false) :
    pyStripL l = l := by
  unfold pyStripL
  have h1 : l.dropWhile pyWS = l := by
    cases l with
    | nil => rfl
    | cons a as =>
      rw [List.dropWhile_cons_of_neg]
      simp [h a (List.mem_cons_self a as)]
  rw [h1]
  have h2 : l.reverse.dropWhile pyWS = l.reverse := by
    cases hr : l.reverse with
    | nil => rfl
    | cons a as =>
      rw [List.dropWhile_cons_of_neg]
      have : a ∈ l.reverse := by rw [hr]; exact List.mem_cons_self a as
      simp [h a (List.mem_reverse.mp this)]
  rw [h2, List.reverse_reverse]

/-- A digit character is one of the ten ASCII digits. -/
theorem digit_mem {c : Char} (h : isDigitB c = true) :
    c ∈ ['0', '1', '2', '3', '4', '5', '6', '7', '8', '9'] := by
  simp only [isDigitB, Bool.and_eq_true, decide_eq_true_eq] at h
  obtain ⟨h1, h2⟩ := h
  have hv1 : 48 ≤ c.toNat := h1
  have hv2 : c.toNat ≤ 57 := h2
  have hofn := Char.ofNat_toNat c
  interval_cases hc : c.toNat <;> (rw [← hofn]; decide)

/-! ## Dict lemmas -/

theorem find?_map_replace_ne {V : Type} (ps : List (String × V)) (k k' : String) (v : V)
    (hk : k' ≠ k) :
    (ps.map (fun p => if p.1 = k then (k, v) else p)).find? (fun p => p.1 = k') =
      ps.find? (fun p => p.1 = k') := by
  induction ps with
  | nil => rfl
  | cons p ps ih =>
    by_cases hp : p.1 = k
    · simp only [List.map_cons, if_pos hp, List.find?]
      rw [show (decide ((k, v).1 = k')) = false from decide_eq_false (fun e => hk e.symm),
        show (decide (p.1 = k')) = false from decide_eq_false (fun e => hk (hp ▸ e).symm)]
      exact ih
    · simp only [List.map_cons, if_neg hp, List.find?]
      cases hd : decide (p.1 = k') <;> simp [hd, ih]

theorem find?_map_replace_self {V : Type} (ps : List (String × V)) (k : String) (v : V)
    (hany : ps.any (fun p => p.1 = k) = true) :
    (ps.map (fun p => if p.1 = k then (k, v) else p)).find? (fun p => p.1 = k) =
      some (k, v) := by
  induction ps with
  | nil => simp at hany
  | cons p ps ih =>
    by_cases hp : p.1 = k
    · simp [List.find?, hp]
    · simp only [List.any_cons, Bool.or_eq_true, decide_eq_true_eq] at hany
      rcases hany with h | h
      · exact absurd h hp
      · simp only [List.map_cons, if_neg hp, List.find?]
        rw [show (decide (p.1 = k)) = false from decide_eq_false hp]
        exact ih h

theorem find?_append_single_ne {V : Type} (m : List (String × V)) (k k' : String) (v : V)
    (hk : k' ≠ k) :
    (m ++ [(k, v)]).find? (fun p => p.1 = k') = m.find? (fun p => p.1 = k') := by
  induction m with
  | nil =>
    simp only [List.nil_append, List.find?]
    rw [show (decide ((k, v).1 = k')) = false from decide_eq_false (fun e => hk e.symm)]
  | cons p ps ih =>
    simp only [List.cons_append, List.find?]
    cases hd : decide (p.1 = k') <;> simp [hd, ih]

theorem find?_append_single_self {V : Type} (m : List (String × V)) (k : String) (v : V)
    (hnone : m.any (fun p => p.1 = k) = false) :
    (m ++ [(k, v)]).find? (fun p => p.1 = k) = some (k, v) := by
  induction m with
  | nil => simp [List.find?]
  | cons p ps ih =>
    simp only [List.any_cons, Bool.or_eq_false_iff] at hnone
    obtain ⟨hp, hps⟩ := hnone
    simp only [List.cons_append, List.find?, hp]
    exact ih hps

theorem dlookup_dinsert_self {V : Type} (m : List (String × V)) (k : String) (v : V) :
    dlookup (dinsert m k v) k = some v := by
  unfold dinsert dlookup
  by_cases h : m.any (fun p => p.1 = k)
  · rw [if_pos h, find?_map_replace_self m k v h]; rfl
  · rw [if_neg h, find?_append_single_self m k v (by rwa [Bool.not_eq_true] at h)]; rfl

theorem dlookup_dinsert_ne {V : Type} (m : List (String × V)) (k k' : String) (v : V)
    (hk : k' ≠ k) : dlookup (dinsert m k v) k' = dlookup m k' := by
  unfold dinsert dlookup
  by_cases h : m.any (fun p => p.1 = k)
  · rw [if_pos h, find?_map_replace_ne m k k' v hk]
  · rw [if_neg h, find?_append_single_ne m k k' v hk]

theorem keys_dinsert {V : Type} (m : List (String × V)) (k : String) (v : V) :
    (dinsert m k v).map Prod.fst =
      if m.any (fun p => p.1 = k) then m.map Prod.fst else m.map Prod.fst ++ [k] := by
  unfold dinsert
  by_cases h : m.any (fun p => p.1 = k)
  · rw [if_pos h, if_pos h, List.map_map]
    apply List.map_congr_left
    intro p _
    by_cases hp : p.1 = k <;> simp [hp]
  · rw [if_neg h, if_neg h]
    simp

theorem keys_nodup_dinsert {V : Type} (m : List (String × V)) (k : String) (v : V)
    (h : (m.map Prod.fst).Nodup) : ((dinsert m k v).map Prod.fst).Nodup := by
  rw [keys_dinsert]
  by_cases hany : m.any (fun p => p.1 = k)
  · rwa [if_pos hany]
  · rw [if_neg hany]
    have hk : k ∉ m.map Prod.fst := by
      intro hmem
      rcases List.mem_map.mp hmem with ⟨p, hp, hpk⟩
      simp only [List.any_eq_true, decide_eq_true_eq] at hany
      exact hany ⟨p, hp, hpk⟩
    rw [← List.concat_eq_append]
    exact List.Nodup.concat hk h

theorem countP_key_nodup {V : Type} (m : List (String × V)) (n : String)
    (h : (m.map Prod.fst).Nodup) :
    m.countP (fun e => e.1 = n) = if m.any (fun e => e.1 = n) then 1 else 0 := by
  induction m with
  | nil => simp
  | cons p ps ih =>
    simp only [List.map_cons, List.nodup_cons] at h
    obtain ⟨hp, hps⟩ := h
    by_cases hpn : p.1 = n
    · rw [List.countP_cons_of_pos _ _ (by simpa using hpn)]
      have hzero : ps.countP (fun e => e.1 = n) = 0 := by
        rw [List.countP_eq_zero]
        intro e he
        simp only [decide_eq_true_eq]
        intro hen
        exact hp (List.mem_map.mpr ⟨e, he, by rw [hen, hpn]⟩)
      simp [hzero, List.any_cons, hpn]
    · rw [List.countP_cons_of_neg _ _ (by simpa using hpn)]
      rw [ih hps]
      have hdec : (decide (p.1 = n)) = false := decide_eq_false hpn
      rw [List.any_cons, hdec, Bool.false_or]

/-! ## Generic list lemmas -/

theorem head?_filter_eq_find? {α : Type} (p : α → Bool) (l : List α) :
    (l.filter p).head? = l.find? p := by
  induction l with
  | nil => rfl
  | cons a as ih =>
    by_cases h : p a
    · simp [List.filter_cons, h, List.find?_cons, ih]
    · simp [List.filter_cons, h, List.find?_cons, ih]

theorem filter_getLast?_eq_reverse_find? {α : Type} (p : α → Bool) (l : List α) :
    (l.filter p).getLast? = l.reverse.find? p := by
  rw [List.getLast?_eq_head?_reverse, ← List.filter_reverse]
  exact head?_filter_eq_find? p l.reverse

end Kiss

namespace Registry

open Kiss

/-! ## Registry lemmas -/

theorem register_lookup (acc : List (String × PluginClass)) (p : PluginClass) (n : String) :
    dlookup (register acc p) n =
      if isNamed n p then some p else dlookup acc n := by
  unfold register isNamed
  cases hm : p.meta with
  | none => simp
  | some md =>
    by_cases hn : md.name = n
    · subst hn
      simp [dlookup_dinsert_self]
    · simp only [hn]
      rw [dlookup_dinsert_ne _ _ _ _ (fun e => hn e.symm)]
      simp [hn]

theorem register_foldl_lookup (ps : List PluginClass) (acc : List (String × PluginClass))
    (n : String) :
    dlookup (ps.foldl register acc) n =
      (ps.reverse.find? (isNamed n)).or (dlookup acc n) := by
  induction ps generalizing acc with
  | nil => simp
  | cons p ps ih =>
    simp only [List.foldl_cons, List.reverse_cons]
    rw [ih, List.find?_append]
    cases hf : ps.reverse.find? (isNamed n) with
    | some q => simp
    | none =>
      simp only [Option.none_or]
      rw [register_lookup]
      by_cases hp : isNamed n p
      · simp [List.find?_cons, hp]
      · simp [List.find?_cons, hp]

theorem register_keys_nodup (acc : List (String × PluginClass)) (p : PluginClass)
    (h : (acc.map Prod.fst).Nodup) : ((register acc p).map Prod.fst).Nodup := by
  unfold register
  cases p.meta with
  | none => exact h
  | some md => exact keys_nodup_dinsert acc md.name p h

theorem registerAll_keys_nodup (ps : List PluginClass) :
    ((registerAll ps).map Prod.fst).Nodup := by
  unfold registerAll
  suffices h : ∀ acc : List (String × PluginClass), (acc.map Prod.fst).Nodup →
      ((ps.foldl register acc).map Prod.fst).Nodup by
    exact h [] (by simp)
  induction ps with
  | nil => intro acc hacc; exact hacc
  | cons p ps ih =>
    intro acc hacc
    exact ih (register acc p) (register_keys_nodup acc p hacc)

theorem namedIn_getLast?_eq (ps : List PluginClass) (n : String) :
    (namedIn ps n).getLast? = ps.reverse.find? (isNamed n) := by
  unfold namedIn
  rw [filter_getLast?_eq_reverse_find?]
  rfl

theorem registerAll_lookup (ps : List PluginClass) (n : String) :
    dlookup (registerAll ps) n = (namedIn ps n).getLast? := by
  unfold registerAll
  rw [register_foldl_lookup, namedIn_getLast?_eq]
  simp [dlookup]

end Registry

namespace Kiss

theorem dlookup_isSome_iff_any {V : Type} (m : List (String × V)) (n : String) :
    (dlookup m n).isSome ↔ m.any (fun p => p.1 = n) = true := by
  unfold dlookup
  rw [show (Option.map Prod.snd (List.find? (fun p => decide (p.1 = n)) m)).isSome
      = (List.find? (fun p => decide (p.1 = n)) m).isSome by
    cases List.find? (fun p => decide (p.1 = n)) m <;> rfl]
  rw [List.find?_isSome, List.any_eq_true]

end Kiss

/-- C8: registering any sequence of plugins leaves a name-keyed map with
no duplicate name keys; for every name the retained entry is the plugin
registered last under that name, and there is exactly one retained entry
for a name that was registered at all. -/
theorem C8_registry_last_write_wins (ps : List Registry.PluginClass) (n : String) :
    ((Registry.getAll (Registry.registerAll ps)).map Prod.fst).Nodup ∧
    Kiss.dlookup (Registry.getAll (Registry.registerAll ps)) n =
      (Registry.namedIn ps n).getLast? ∧
    (Registry.getAll (Registry.registerAll ps)).countP (fun e => e.1 = n) =
      (if Registry.namedIn ps n = [] then 0 else 1) := by
  have hgetAll : Registry.getAll (Registry.registerAll ps) = Registry.registerAll ps := rfl
  refine ⟨Registry.registerAll_keys_nodup ps, Registry.registerAll_lookup ps n, ?_⟩
  rw [hgetAll, Kiss.countP_key_nodup _ _ (Registry.registerAll_keys_nodup ps)]
  have hl := Registry.registerAll_lookup ps n
  by_cases hne : Registry.namedIn ps n = []
  · rw [if_neg, if_pos hne]
    rw [hne] at hl
    simp only [List.getLast?_nil] at hl
    intro hany
    have := (Kiss.dlookup_isSome_iff_any (Registry.registerAll ps) n).mpr hany
    rw [hl] at this
    simp at this
  · rw [if_pos, if_neg hne]
    have hsome : (Registry.namedIn ps n).getLast?.isSome := List.getLast?_isSome.mpr hne
    rw [← hl] at hsome
    exact (Kiss.dlookup_isSome_iff_any (Registry.registerAll ps) n).mp hsome

/-- C9: the aggregation step of scan drops exactly the findings whose
value is the sentinel "None found": the result is the sentinel filter of
the flattened outcome findings, a sublist of them (original relative
order), membership is unchanged for non-sentinel findings, and
multiplicities of non-sentinel findings are preserved (no
deduplication). -/
theorem C9_aggregation_filters_exactly_sentinel
    (outcomes : List (String × Xsint.ModResult)) :
    Xsint.aggregateOutcomes outcomes =
      (Xsint.flattenOutcomes outcomes).filter (fun f => f.value ≠ Kiss.sentinelNone) ∧
    (Xsint.aggregateOutcomes outcomes).Sublist (Xsint.flattenOutcomes outcomes) ∧
    (∀ f : Kiss.Finding,
      f ∈ Xsint.aggregateOutcomes outcomes ↔
        f ∈ Xsint.flattenOutcomes outcomes ∧ f.value ≠ Kiss.sentinelNone) ∧
    (∀ f : Kiss.Finding, f.value ≠ Kiss.sentinelNone →
      (Xsint.aggregateOutcomes outcomes).count f = (Xsint.flattenOutcomes outcomes).count f) := by
  refine ⟨rfl, List.filter_sublist _, ?_, ?_⟩
  · intro f
    simp [Xsint.aggregateOutcomes, Kiss.filterSentinel, List.mem_filter]
  · intro f hf
    show ((Xsint.flattenOutcomes outcomes).filter (fun r => r.value ≠ Kiss.sentinelNone)).count f = _
    rw [List.count_filter]
    simp [hf]

/-- Witness for C9 at a concrete outcome list. -/
theorem C9_aggregation_filters_exactly_sentinel_witness :
    CX.goodF.value ≠ Kiss.sentinelNone ∧
    (Xsint.aggregateOutcomes
        [("m2", Xsint.ModResult.val 1 [CX.goodF, CX.sentF]), ("m1", Xsint.ModResult.exc "boom")]).count CX.goodF =
      (Xsint.flattenOutcomes
        [("m2", Xsint.ModResult.val 1 [CX.goodF, CX.sentF]), ("m1", Xsint.ModResult.exc "boom")]).count CX.goodF :=
  ⟨by decide,
    (C9_aggregation_filters_exactly_sentinel
      [("m2", Xsint.ModResult.val 1 [CX.goodF, CX.sentF]),
       ("m1", Xsint.ModResult.exc "boom")]).2.2.2 CX.goodF (by decide)⟩

namespace Xsint

/-- The per-module wrapper returns the same value whatever the progress
callback is: the callback is only ever called inside the try/except of
_emit_progress, whose result is discarded. -/
theorem runModuleWithProgress_cb (timeoutSecs : Int) (cb : Option ProgressCb)
    (m : ScannedModule) :
    runModuleWithProgress timeoutSecs cb m = runModuleWithProgress timeoutSecs none m := by
  unfold runModuleWithProgress
  cases m.behavior <;> rfl

end Xsint

/-- C10: progress-sink noninterference: for every target, module set and
per-module timeout, the scan returns the identical result whether run
with no progress callback or with an arbitrary callback, including one
that raises on every event; a throwing callback is swallowed by the
emit wrapper and cannot alter or abort the scan. -/
theorem C10_progress_sink_noninterference
    (detect : String → Option String × String) (keyLookup : String → Option String)
    (timeoutSecs : Int) (mods : List Xsint.ScannedModule) (target : String)
    (cb : Xsint.ProgressCb) :
    Xsint.scanE detect keyLookup timeoutSecs mods target (some cb) =
      Xsint.scanE detect keyLookup timeoutSecs mods target none := by
  unfold Xsint.scanE
  rw [funext (Xsint.runModuleWithProgress_cb timeoutSecs (some cb))]

namespace Xsint

open Kiss

/-! ## Engine lemmas -/

/-- A two-output foldl that appends per-element selections is the pair
of filterMaps. -/
theorem foldl_pair_filterMap {α β γ : Type}
    (step : (List β × List γ) → α → (List β × List γ))
    (f : α → Option β) (g : α → Option γ)
    (hstep : ∀ acc x, step acc x = (acc.1 ++ (f x).toList, acc.2 ++ (g x).toList))
    (l : List α) :
    ∀ (a : List β) (b : List γ),
      l.foldl step (a, b) = (a ++ l.filterMap f, b ++ l.filterMap g) := by
  induction l with
  | nil => intro a b; simp
  | cons x xs ih =>
    intro a b
    rw [List.foldl_cons, hstep, ih]
    rw [List.filterMap_cons, List.filterMap_cons]
    cases f x <;> cases g x <;> simp

/-- _load_modules_for_type selects runners and skipped reports
module-wise. -/
theorem loadModulesForType_eq (keyLookup : String → Option String)
    (mods : List ScannedModule) (t : String) :
    loadModulesForType keyLookup mods t =
      (mods.filterMap (runnerSel keyLookup t), mods.filterMap (skipSel keyLookup t)) := by
  have hstep : ∀ (acc : List ScannedModule × List (String × String)) (m : ScannedModule),
      (fun (acc : List ScannedModule × List (String × String)) (m : ScannedModule) =>
        if t ∈ m.info.free ∨ t ∈ m.info.paid then
          if (m.info.paid.contains t && !m.info.free.contains t) &&
              (match m.info.apiKey with
               | some k => (keyLookup k).isNone
               | none => false) then
            acc
          else if !m.importOk then
            acc
          else if !m.ready then
            (acc.1, acc.2 ++ [(m.name, if m.readyReason = "" then "not configured" else m.readyReason)])
          else if m.hasRun then
            (acc.1 ++ [m], acc.2)
          else
            acc
        else
          acc) acc m =
      (acc.1 ++ (runnerSel keyLookup t m).toList, acc.2 ++ (skipSel keyLookup t m).toList) := by
    intro acc m
    unfold runnerSel skipSel
    by_cases h1 : t ∈ m.info.free ∨ t ∈ m.info.paid
    · simp only [if_pos h1]
      split
      · simp
      · split
        · simp
        · split
          · simp
          · split <;> simp
    · simp [h1]
  unfold loadModulesForType
  have h := foldl_pair_filterMap
    (fun (acc : List ScannedModule × List (String × String)) (m : ScannedModule) =>
      if t ∈ m.info.free ∨ t ∈ m.info.paid then
        if (m.info.paid.contains t && !m.info.free.contains t) &&
            (match m.info.apiKey with
             | some k => (keyLookup k).isNone
             | none => false) then
          acc
        else if !m.importOk then
          acc
        else if !m.ready then
          (acc.1, acc.2 ++ [(m.name, if m.readyReason = "" then "not configured" else m.readyReason)])
        else if m.hasRun then
          (acc.1 ++ [m], acc.2)
        else
          acc
      else
        acc)
    (runnerSel keyLookup t) (skipSel keyLookup t) hstep mods [] []
  simpa using h

/-- The collection loop is the concatenation of per-outcome
contributions. -/
theorem flattenOutcomes_eq (results : List (String × ModResult)) :
    flattenOutcomes results = results.flatMap outcomeContrib := by
  unfold flattenOutcomes
  suffices h : ∀ acc : List Finding,
      results.foldl
        (fun acc r =>
          match r.2 with
          | .exc e => acc ++ [errorFinding r.1 e]
          | .val _ d => acc ++ d
          | .other => acc)
        acc = acc ++ results.flatMap outcomeContrib by
    simpa using h []
  induction results with
  | nil => intro acc; simp
  | cons r rs ih =>
    intro acc
    rw [List.foldl_cons, List.flatMap_cons]
    cases hr : r.2 with
    | exc e => rw [ih]; simp [outcomeContrib, hr]
    | val s d => rw [ih]; simp [outcomeContrib, hr]
    | other => rw [ih]; simp [outcomeContrib, hr]

/-- Membership in the flattened outcomes. -/
theorem mem_flattenOutcomes {f : Finding} {results : List (String × ModResult)} :
    f ∈ flattenOutcomes results ↔ ∃ r ∈ results, f ∈ outcomeContrib r := by
  rw [flattenOutcomes_eq]
  exact List.mem_flatMap

/-- The main-path shape of scan: when detection yields a type and at
least one runner loads, the result is the aggregation of the runners'
outcomes with no error. -/
theorem scanE_main (detect : String → Option String × String)
    (keyLookup : String → Option String) (timeoutSecs : Int)
    (mods : List ScannedModule) (target : String) (cb : Option ProgressCb)
    (t ct : String)
    (hdet : detect (pyStrip target) = (some t, ct))
    (hne : (loadModulesForType keyLookup mods t).1 ≠ []) :
    scanE detect keyLookup timeoutSecs mods target cb =
      { type := t,
        results := aggregateOutcomes ((loadModulesForType keyLookup mods t).1.map
          (runModuleWithProgress timeoutSecs cb)),
        themes := (loadModulesForType keyLookup mods t).1.foldl
          (fun acc m =>
            match m.info.themes with
            | some th => dupdate acc th
            | none => acc)
          [],
        error := none } := by
  unfold scanE
  simp only [hdet]
  rw [if_neg hne]

/-- A module whose target type is free, which imports, is ready and has a
run function, is selected as a runner. -/
theorem runnerSel_free (keyLookup : String → Option String) (t : String)
    (m : ScannedModule) (hfree : t ∈ m.info.free) (hio : m.importOk = true)
    (hr : m.ready = true) (hrun : m.hasRun = true) :
    runnerSel keyLookup t m = some m := by
  unfold runnerSel
  rw [if_pos (Or.inl hfree)]
  have hc : m.info.free.contains t = true := by simpa using hfree
  simp [hc, hio, hr, hrun]
  intro _ hnot
  exact absurd hfree hnot

/-- The Timeout finding's value is never the sentinel. -/
theorem timeoutFinding_value_ne (name : String) (ts : Int) :
    (timeoutFinding name ts).value ≠ sentinelNone := by
  unfold timeoutFinding sentinelNone
  intro h
  simp only at h
  have hlen := congrArg String.length h
  rw [String.length_append, String.length_append] at hlen
  have e1 : ("Module timed out after ").length = 23 := rfl
  have e2 : ("s" : String).length = 1 := rfl
  have e3 : ("None found" : String).length = 10 := rfl
  omega

/-- A runner's wrapped outcome under each behaviour. -/
theorem runModuleWithProgress_timedOut (timeoutSecs : Int) (cb : Option ProgressCb)
    (m : ScannedModule) (hb : m.behavior = .timedOut) :
    runModuleWithProgress timeoutSecs cb m =
      (m.name, .val 1 [timeoutFinding m.name timeoutSecs]) := by
  unfold runModuleWithProgress
  rw [hb]

theorem runModuleWithProgress_val (timeoutSecs : Int) (cb : Option ProgressCb)
    (m : ScannedModule) (s : Int) (d : List Finding) (hb : m.behavior = .val s d) :
    runModuleWithProgress timeoutSecs cb m = (m.name, .val s d) := by
  unfold runModuleWithProgress
  rw [hb]

theorem runModuleWithProgress_exc (timeoutSecs : Int) (cb : Option ProgressCb)
    (m : ScannedModule) (e : String) (hb : m.behavior = .exc e) :
    runModuleWithProgress timeoutSecs cb m = (m.name, .exc e) := by
  unfold runModuleWithProgress
  rw [hb]

/-- A finding contributed by some runner's outcome, with a non-sentinel
value, is in the scan's results on the main path. -/
theorem mem_scanE_results (detect : String → Option String × String)
    (keyLookup : String → Option String) (timeoutSecs : Int)
    (mods : List ScannedModule) (target : String) (cb : Option ProgressCb)
    (t ct : String) (m : ScannedModule) (f : Finding)
    (hdet : detect (pyStrip target) = (some t, ct))
    (hm : m ∈ (loadModulesForType keyLookup mods t).1)
    (hf : f ∈ outcomeContrib (runModuleWithProgress timeoutSecs cb m))
    (hval : f.value ≠ sentinelNone) :
    f ∈ (scanE detect keyLookup timeoutSecs mods target cb).results := by
  rw [scanE_main detect keyLookup timeoutSecs mods target cb t ct hdet
    (List.ne_nil_of_mem hm)]
  simp only
  unfold aggregateOutcomes filterSentinel
  rw [List.mem_filter]
  refine ⟨?_, by simpa using hval⟩
  exact mem_flattenOutcomes.mpr
    ⟨runModuleWithProgress timeoutSecs cb m, List.mem_map_of_mem _ hm, hf⟩

end Xsint

/-- C1 counterexample: with a module whose exception text is exactly the
sentinel "None found" and a sibling module that also reports a sentinel
finding next to a real one, the scan result neither contains the
Error-status entry for the failing module nor all of the successful
module's findings: the claim as stated fails at this input. -/
theorem C1_counterexample :
    (Xsint.scanE CX.emailDetect CX.noKeyStore 25 [CX.c1FailMod, CX.c1OkMod]
        "target" none).results = [CX.goodF] ∧
    Xsint.errorFinding "m1" "None found" ∉
      (Xsint.scanE CX.emailDetect CX.noKeyStore 25 [CX.c1FailMod, CX.c1OkMod]
        "target" none).results ∧
    CX.sentF ∉
      (Xsint.scanE CX.emailDetect CX.noKeyStore 25 [CX.c1FailMod, CX.c1OkMod]
        "target" none).results := by
  refine ⟨?_, ?_, ?_⟩ <;> decide

/-- C1 (amended): on a scan whose launched modules include one that
raises an exception and one that succeeds, the exception is turned into
data: the scan returns normally (error = None), the result contains the
high-risk Error finding carrying the exception text and the failing
module's name provided that text is not the sentinel "None found", and
every finding of the successful module whose value is not the sentinel
is preserved in the result. -/
theorem C1_error_isolation_amended
    (detect : String → Option String × String) (keyLookup : String → Option String)
    (timeoutSecs : Int) (mods : List Xsint.ScannedModule) (target : String)
    (cb : Option Xsint.ProgressCb) (t ct : String)
    (mA mB : Xsint.ScannedModule) (e : String) (s : Int) (fs : List Kiss.Finding)
    (hdet : detect (Kiss.pyStrip target) = (some t, ct))
    (hmA : mA ∈ (Xsint.loadModulesForType keyLookup mods t).1)
    (hmB : mB ∈ (Xsint.loadModulesForType keyLookup mods t).1)
    (hbA : mA.behavior = .exc e) (hbB : mB.behavior = .val s fs)
    (he : e ≠ Kiss.sentinelNone) :
    (Xsint.scanE detect keyLookup timeoutSecs mods target cb).error = none ∧
    Xsint.errorFinding mA.name e ∈
      (Xsint.scanE detect keyLookup timeoutSecs mods target cb).results ∧
    (∀ f ∈ fs, f.value ≠ Kiss.sentinelNone →
      f ∈ (Xsint.scanE detect keyLookup timeoutSecs mods target cb).results) := by
  refine ⟨?_, ?_, ?_⟩
  · rw [Xsint.scanE_main detect keyLookup timeoutSecs mods target cb t ct hdet
      (List.ne_nil_of_mem hmA)]
  · apply Xsint.mem_scanE_results detect keyLookup timeoutSecs mods target cb t ct mA
      _ hdet hmA
    · rw [Xsint.runModuleWithProgress_exc timeoutSecs cb mA e hbA]
      simp [Xsint.outcomeContrib]
    · exact he
  · intro f hf hval
    apply Xsint.mem_scanE_results detect keyLookup timeoutSecs mods target cb t ct mB
      _ hdet hmB
    · rw [Xsint.runModuleWithProgress_val timeoutSecs cb mB s fs hbB]
      simpa [Xsint.outcomeContrib] using hf
    · exact hval

/-- Witness for C1 at a concrete scan: a failing module next to a
succeeding one. -/
theorem C1_error_isolation_amended_witness :
    CX.emailDetect (Kiss.pyStrip "x") = (some "email", "x") ∧
    CX.wFailMod ∈ (Xsint.loadModulesForType CX.noKeyStore [CX.wFailMod, CX.wOkMod] "email").1 ∧
    CX.wOkMod ∈ (Xsint.loadModulesForType CX.noKeyStore [CX.wFailMod, CX.wOkMod] "email").1 ∧
    ("boom" : String) ≠ Kiss.sentinelNone ∧
    Xsint.errorFinding "m1" "boom" ∈
      (Xsint.scanE CX.emailDetect CX.noKeyStore 25 [CX.wFailMod, CX.wOkMod] "x" none).results ∧
    CX.goodF ∈
      (Xsint.scanE CX.emailDetect CX.noKeyStore 25 [CX.wFailMod, CX.wOkMod] "x" none).results := by
  have h := C1_error_isolation_amended CX.emailDetect CX.noKeyStore 25
    [CX.wFailMod, CX.wOkMod] "x" none "email" "x" CX.wFailMod CX.wOkMod
    "boom" 1 [CX.goodF] (by decide) (by decide) (by decide) (by decide) (by decide)
    (by decide)
  exact ⟨by decide, by decide, by decide, by decide, h.2.1,
    h.2.2 CX.goodF (List.mem_singleton.mpr rfl) (by decide)⟩

/-- C2: the per-module timeout is 25 seconds when the environment
override is unset, and a launched module that exceeds it yields a
synthetic medium-risk Timeout finding as data: the scan returns normally
(no exception, error = None), the Timeout finding names the module, and
every other launched module's non-sentinel findings are still
returned. -/
theorem C2_per_module_timeout_as_data :
    Xsint.moduleTimeoutOf none = 25 ∧
    ∀ (detect : String → Option String × String) (keyLookup : String → Option String)
      (env : Option String) (mods : List Xsint.ScannedModule) (target : String)
      (cb : Option Xsint.ProgressCb) (t ct : String) (m : Xsint.ScannedModule),
      detect (Kiss.pyStrip target) = (some t, ct) →
      m ∈ (Xsint.loadModulesForType keyLookup mods t).1 →
      m.behavior = .timedOut →
      ((Xsint.scanE detect keyLookup (Xsint.moduleTimeoutOf env) mods target cb).error = none ∧
       Xsint.timeoutFinding m.name (Xsint.moduleTimeoutOf env) ∈
         (Xsint.scanE detect keyLookup (Xsint.moduleTimeoutOf env) mods target cb).results ∧
       (Xsint.timeoutFinding m.name (Xsint.moduleTimeoutOf env)).label = "Timeout" ∧
       (Xsint.timeoutFinding m.name (Xsint.moduleTimeoutOf env)).risk = "medium" ∧
       (∀ (m2 : Xsint.ScannedModule) (s2 : Int) (d2 : List Kiss.Finding),
         m2 ∈ (Xsint.loadModulesForType keyLookup mods t).1 → m2.behavior = .val s2 d2 →
         ∀ f ∈ d2, f.value ≠ Kiss.sentinelNone →
           f ∈ (Xsint.scanE detect keyLookup (Xsint.moduleTimeoutOf env) mods target cb).results)) := by
  refine ⟨rfl, ?_⟩
  intro detect keyLookup env mods target cb t ct m hdet hm hb
  refine ⟨?_, ?_, rfl, rfl, ?_⟩
  · rw [Xsint.scanE_main detect keyLookup (Xsint.moduleTimeoutOf env) mods target cb t ct
      hdet (List.ne_nil_of_mem hm)]
  · apply Xsint.mem_scanE_results detect keyLookup (Xsint.moduleTimeoutOf env) mods target
      cb t ct m _ hdet hm
    · rw [Xsint.runModuleWithProgress_timedOut (Xsint.moduleTimeoutOf env) cb m hb]
      simp [Xsint.outcomeContrib]
    · exact Xsint.timeoutFinding_value_ne m.name (Xsint.moduleTimeoutOf env)
  · intro m2 s2 d2 hm2 hb2 f hf hval
    apply Xsint.mem_scanE_results detect keyLookup (Xsint.moduleTimeoutOf env) mods target
      cb t ct m2 _ hdet hm2
    · rw [Xsint.runModuleWithProgress_val (Xsint.moduleTimeoutOf env) cb m2 s2 d2 hb2]
      simpa [Xsint.outcomeContrib] using hf
    · exact hval

/-- Witness for C2 at a concrete scan: a timing-out module next to a
succeeding one, with the override unset. -/
theorem C2_per_module_timeout_as_data_witness :
    CX.emailDetect (Kiss.pyStrip "x") = (some "email", "x") ∧
    CX.wSlowMod ∈ (Xsint.loadModulesForType CX.noKeyStore [CX.wSlowMod, CX.wOkMod] "email").1 ∧
    Xsint.timeoutFinding "m3" (Xsint.moduleTimeoutOf none) ∈
      (Xsint.scanE CX.emailDetect CX.noKeyStore (Xsint.moduleTimeoutOf none)
        [CX.wSlowMod, CX.wOkMod] "x" none).results ∧
    CX.goodF ∈
      (Xsint.scanE CX.emailDetect CX.noKeyStore (Xsint.moduleTimeoutOf none)
        [CX.wSlowMod, CX.wOkMod] "x" none).results := by
  have h := (C2_per_module_timeout_as_data).2 CX.emailDetect CX.noKeyStore none
    [CX.wSlowMod, CX.wOkMod] "x" none "email" "x" CX.wSlowMod
    (by decide) (by decide) (by decide)
  exact ⟨by decide, by decide, h.2.1,
    h.2.2.2.2 CX.wOkMod 1 [CX.goodF] (by decide) (by decide) CX.goodF
      (List.mem_singleton.mpr rfl) (by decide)⟩

/-- C7 counterexample: a module listing the email type in both its free
and its paid lists, with no key configured, is not rejected: it is
loaded as a runner for the email type and its capability entry is
active.  The claim, which says such a module is rejected at registration
and never appears among the modules returned for the type, fails here. -/
theorem C7_counterexample :
    (Xsint.loadModulesForType CX.noKeyStore [CX.dupMod] "email").1.map
        Xsint.ScannedModule.name = ["dup"] ∧
    (Xsint.getCapabilitiesFor CX.noKeyStore [CX.dupMod] "email").map
        Xsint.CapEntry.status = ["active"] := by
  refine ⟨?_, ?_⟩ <;> decide

/-- C7 (amended): a module descriptor that lists a target type in both
its free and its paid sets is not rejected; the free listing wins: the
module is loaded as a runner for that type regardless of whether its key
is configured, and its capability status for that type is active. -/
theorem C7_overlap_treated_as_free
    (keyLookup : String → Option String) (mods : List Xsint.ScannedModule)
    (m : Xsint.ScannedModule) (t : String)
    (hmem : m ∈ mods) (hfree : t ∈ m.info.free) (_hpaid : t ∈ m.info.paid)
    (hio : m.importOk = true) (hr : m.ready = true) (hrun : m.hasRun = true) :
    m ∈ (Xsint.loadModulesForType keyLookup mods t).1 ∧
    (t ∈ Xsint.VALID_TYPES →
      ({ name := m.name, status := "active", apiKey := m.info.apiKey,
         returns := m.info.returns, reason := m.readyReason } : Xsint.CapEntry) ∈
        Xsint.getCapabilitiesFor keyLookup mods t) := by
  constructor
  · rw [Xsint.loadModulesForType_eq]
    exact List.mem_filterMap.mpr
      ⟨m, hmem, Xsint.runnerSel_free keyLookup t m hfree hio hr hrun⟩
  · intro hvt
    unfold Xsint.getCapabilitiesFor
    refine List.mem_filterMap.mpr ⟨m, hmem, ?_⟩
    unfold Xsint.capEntryFor
    rw [if_pos (Or.inl hfree), if_pos hvt]
    simp [hfree, hio, hr]

/-- Witness for C7 at the concrete overlapping module. -/
theorem C7_overlap_treated_as_free_witness :
    CX.dupMod ∈ [CX.dupMod] ∧
    "email" ∈ CX.dupMod.info.free ∧ "email" ∈ CX.dupMod.info.paid ∧
    CX.dupMod ∈ (Xsint.loadModulesForType CX.noKeyStore [CX.dupMod] "email").1 ∧
    ({ name := "dup", status := "active", apiKey := some "k",
       returns := [], reason := "" } : Xsint.CapEntry) ∈
      Xsint.getCapabilitiesFor CX.noKeyStore [CX.dupMod] "email" := by
  have h := C7_overlap_treated_as_free CX.noKeyStore [CX.dupMod] CX.dupMod "email"
    (by decide) (by decide) (by decide) rfl rfl rfl
  exact ⟨by decide, by decide, by decide, h.1, h.2 (by decide)⟩

namespace Kiss

/-- A character whose class test is false is not in a list all of whose
characters pass the test. -/
theorem not_mem_of_class {P : Char → Bool} {l : List Char}
    (hclass : ∀ c ∈ l, P c = true) {c0 : Char} (hc0 : P c0 = false) : c0 ∉ l := by
  intro hmem
  rw [hclass c0 hmem] at hc0
  simp at hc0

/-- dropWhile is the identity when no character satisfies the
predicate. -/
theorem dropWhile_eq_self_of_none {α : Type} {p : α → Bool} {l : List α}
    (h : ∀ c ∈ l, p c = false) : l.dropWhile p = l := by
  cases l with
  | nil => rfl
  | cons a as =>
    rw [List.dropWhile_cons_of_neg]
    simp [h a (List.mem_cons_self a as)]

/-- A digit is not Python whitespace. -/
theorem digit_not_ws {c : Char} (h : isDigitB c = true) : pyWS c = false := by
  have hm := digit_mem h
  simp only [List.mem_cons, List.not_mem_nil, or_false] at hm
  rcases hm with rfl | rfl | rfl | rfl | rfl | rfl | rfl | rfl | rfl | rfl <;> decide

end Kiss

/-- C5 counterexample: the string aabbccddeeff meets every condition the
claim lists (trimmed, 3 to 30 username-class characters, not all digits,
not a valid IP, not six separated hex pairs, none of the listed hash
shapes, not an email, fewer than ten digits, no dot), yet classify
returns WIFI, not USERNAME: the separator-free twelve-hex BSSID form
captures it first. -/
theorem C5_counterexample :
    Kiss.pyStripL ("aabbccddeeff" : String).data = ("aabbccddeeff" : String).data ∧
    3 ≤ ("aabbccddeeff" : String).data.length ∧
    ("aabbccddeeff" : String).data.length ≤ 30 ∧
    (∀ c ∈ ("aabbccddeeff" : String).data, Detect.isUserChar c = true) ∧
    ¬ (∀ c ∈ ("aabbccddeeff" : String).data, Kiss.isDigitB c = true) ∧
    Detect.is_ip_address ("aabbccddeeff" : String).data = false ∧
    Detect.matchBssidRe ("aabbccddeeff" : String).data = false ∧
    Detect.detect_hash_type ("aabbccddeeff" : String).data = none ∧
    Detect.matchEmail ("aabbccddeeff" : String).data = false ∧
    ("aabbccddeeff" : String).data.countP Kiss.isDigitB < 10 ∧
    '.' ∉ ("aabbccddeeff" : String).data ∧
    Detect.detect_input_type "aabbccddeeff" = some "WIFI" := by
  refine ⟨?_, ?_, ?_, ?_, ?_, ?_, ?_, ?_, ?_, ?_, ?_, ?_⟩ <;> decide

/-- C5 (amended): for every trimmed string of 3 to 30 characters drawn
from the username class that is not all digits, not a valid IP address,
not six colon- or dash-separated hex pairs, not a separator-free run of
twelve hex characters (the added condition), none of the hash shapes,
not an email, with fewer than ten digits and no dot, classify returns
USERNAME. -/
theorem C5_username_catchall_amended (s : String)
    (htrim : Kiss.pyStripL s.data = s.data)
    (hlen3 : 3 ≤ s.data.length) (hlen30 : s.data.length ≤ 30)
    (hclass : ∀ c ∈ s.data, Detect.isUserChar c = true)
    (hnotdig : ¬ ∀ c ∈ s.data, Kiss.isDigitB c = true)
    (hip : Detect.is_ip_address s.data = false)
    (hbssid : Detect.matchBssidRe s.data = false)
    (hhex12 : ¬ (s.data.length = 12 ∧ ∀ c ∈ s.data, Kiss.isHexB c = true))
    (hhash : Detect.detect_hash_type s.data = none)
    (hemail : Detect.matchEmail s.data = false)
    (hdig : s.data.countP Kiss.isDigitB < 10)
    (hdot : '.' ∉ s.data) :
    Detect.detect_input_type s = some "USERNAME" := by
  have hne : s.data ≠ [] := by
    intro he
    rw [he] at hlen3
    simp at hlen3
  have hnopipe : '|' ∉ s.data := Kiss.not_mem_of_class hclass (by decide)
  have hnoat : '@' ∉ s.data := Kiss.not_mem_of_class hclass (by decide)
  -- is_bssid is false: no pipe, the separated pattern fails, and the
  -- twelve-hex form fails
  have hbss : Detect.is_bssid s.data = false := by
    unfold Detect.is_bssid
    rw [if_neg hnopipe]
    simp only [hbssid, Bool.false_or]
    by_cases h12 : s.data.length = 12
    · have hallhex : s.data.all Kiss.isHexB = false := by
        rw [← Bool.not_eq_true, List.all_eq_true]
        intro hall
        exact hhex12 ⟨h12, hall⟩
      simp [hallhex]
    · simp only [Bool.and_eq_false_iff]
      left
      simp only [decide_eq_false_iff_not]
      exact h12
  -- phone is false: the cleaned string is the digits only
  have hphone : Detect.is_phone_number s.data = false := by
    unfold Detect.is_phone_number
    have hfc : s.data.filter (fun c => Kiss.isDigitB c || c = '+') =
        s.data.filter Kiss.isDigitB := by
      apply List.filter_congr
      intro c hc
      have : (c = '+') = False := by
        simp only [eq_iff_iff, iff_false]
        intro he
        exact absurd (hclass c hc) (by rw [he]; decide)
      simp [this]
    rw [hfc]
    have hlt : (s.data.filter Kiss.isDigitB).length < 10 := by
      rw [← List.countP_eq_length_filter]
      exact hdig
    simp only [Bool.and_eq_false_iff]
    left
    simpa using Nat.not_le.mpr hlt
  -- domain is false: no dot
  have hdom : Detect.is_domain s.data = false := by
    unfold Detect.is_domain
    simp [hdot]
  -- username is true
  have huser : Detect.is_username s.data = true := by
    unfold Detect.is_username
    have hdw : s.data.dropWhile (fun c => c = '@') = s.data := by
      apply Kiss.dropWhile_eq_self_of_none
      intro c hc
      simp only [decide_eq_false_iff_not]
      intro he
      exact hnoat (he ▸ hc)
    rw [hdw]
    simp only [Bool.and_eq_true, decide_eq_true_eq, Bool.not_eq_true']
    refine ⟨⟨⟨hlen3, hlen30⟩, List.all_eq_true.mpr hclass⟩, ?_⟩
    simp only [Bool.and_eq_false_iff]
    right
    rw [← Bool.not_eq_true, List.all_eq_true]
    simpa using hnotdig
  unfold Detect.detect_input_type
  rw [if_neg hne]
  simp [htrim, hip, hbss, hhash, hemail, hphone, hdom, huser, Detect.is_email]

/-- Witness for C5 at the concrete username john_doe-99. -/
theorem C5_username_catchall_amended_witness :
    Kiss.pyStripL ("john_doe-99" : String).data = ("john_doe-99" : String).data ∧
    3 ≤ ("john_doe-99" : String).data.length ∧
    ("john_doe-99" : String).data.length ≤ 30 ∧
    (∀ c ∈ ("john_doe-99" : String).data, Detect.isUserChar c = true) ∧
    ¬ (∀ c ∈ ("john_doe-99" : String).data, Kiss.isDigitB c = true) ∧
    Detect.is_ip_address ("john_doe-99" : String).data = false ∧
    Detect.matchBssidRe ("john_doe-99" : String).data = false ∧
    ¬ (("john_doe-99" : String).data.length = 12 ∧
       ∀ c ∈ ("john_doe-99" : String).data, Kiss.isHexB c = true) ∧
    Detect.detect_hash_type ("john_doe-99" : String).data = none ∧
    Detect.matchEmail ("john_doe-99" : String).data = false ∧
    ("john_doe-99" : String).data.countP Kiss.isDigitB < 10 ∧
    '.' ∉ ("john_doe-99" : String).data ∧
    Detect.detect_input_type "john_doe-99" = some "USERNAME" :=
  ⟨by decide, by decide, by decide, by decide, by decide, by decide, by decide,
   by decide, by decide, by decide, by decide, by decide,
   C5_username_catchall_amended "john_doe-99" (by decide) (by decide) (by decide)
     (by decide) (by decide) (by decide) (by decide) (by decide) (by decide)
     (by decide) (by decide) (by decide)⟩

namespace Detect

open Kiss

/-- detect_hash_core recognises exactly the amended shape set. -/
theorem detect_hash_core_isSome_eq (h : List Char) :
    (detect_hash_core h).isSome = hashShapeCore h := by
  have hdrop : h.length = 41 → h.drop 1 ≠ [] := by
    intro h41 he
    have := congrArg List.length he
    rw [List.length_drop, h41] at this
    simp at this
  unfold detect_hash_core hashShapeCore hexRun
  split_ifs with h1 h2 h3 h4 h5 h6 h7 h8 h9
  · simp_all
  · simp_all
  · simp_all
  · simp_all
  · simp_all
  · simp_all
  · simp_all
  · simp_all
  · simp_all
  · -- none branch: every shape disjunct is refuted by its condition
    symm
    simp only [Option.isSome_none]
    rw [Bool.or_eq_false_iff, Bool.or_eq_false_iff, Bool.or_eq_false_iff]
    refine ⟨⟨⟨?_, ?_⟩, ?_⟩, ?_⟩
    · by_contra hx
      rw [Bool.not_eq_false, Bool.and_eq_true] at hx
      obtain ⟨hlenOr, hrun⟩ := hx
      simp only [Bool.or_eq_true, decide_eq_true_eq] at hlenOr
      rcases hlenOr with (((((e | e) | e) | e) | e) | e)
      · exact h1 (by rw [Bool.and_eq_true]; exact ⟨by simp [e], hrun⟩)
      · exact h2 (by rw [Bool.and_eq_true]; exact ⟨by simp [e], hrun⟩)
      · exact h3 (by rw [Bool.and_eq_true]; exact ⟨by simp [e], hrun⟩)
      · exact h4 (by rw [Bool.and_eq_true]; exact ⟨by simp [e], hrun⟩)
      · exact h5 (by rw [Bool.and_eq_true]; exact ⟨by simp [e], hrun⟩)
      · exact h6 (by rw [Bool.and_eq_true]; exact ⟨by simp [e], hrun⟩)
    · by_contra hx
      rw [Bool.not_eq_false] at hx
      simp only [Bool.and_eq_true, decide_eq_true_eq] at hx
      obtain ⟨h41, hstar, hall⟩ := hx
      exact h7 (by
        rw [Bool.and_eq_true, Bool.and_eq_true, Bool.and_eq_true]
        exact ⟨by simp [h41], by simp [hstar], by simpa using hdrop h41, hall⟩)
    · by_contra hx
      rw [Bool.not_eq_false] at hx
      simp only [Bool.and_eq_true, decide_eq_true_eq] at hx
      exact h8 (by rw [Bool.and_eq_true]; exact ⟨by simp [hx.1], hx.2⟩)
    · by_contra hx
      rw [Bool.not_eq_false] at hx
      exact h9 hx

/-- detect_hash_type recognises exactly the amended shape set. -/
theorem detect_hash_type_isSome_eq (l : List Char) :
    (detect_hash_type l).isSome = hashShapeAmended l := by
  unfold detect_hash_type hashShapeAmended
  exact detect_hash_core_isSome_eq (lowerL (pyStripL l))

end Detect

/-- C6 counterexample: the claim's shape set is wrong in both
directions.  The five-character string dollar-2-b-dollar-5 begins with
the bcrypt prefix, so the claim says HASH, but classify returns nothing
(the code also demands length 60 and a two-digit cost); the 41-character
star-plus-40-hex MySQL string is outside the claim's shapes, yet
classify returns HASH. -/
theorem C6_counterexample :
    Detect.hashShapeClaim ("$2b$5" : String).data = true ∧
    Detect.detect_input_type "$2b$5" = none ∧
    Detect.hashShapeClaim CX.mysqlStr.data = false ∧
    Detect.detect_input_type CX.mysqlStr = some "HASH" := by
  refine ⟨?_, ?_, ?_, ?_⟩ <;> decide

/-- C6 (amended): among trimmed nonempty inputs not captured by the
earlier IP and BSSID rules, classify returns HASH exactly when the
stripped, lower-cased input is a hex string of length 32, 40, 56, 64, 96
or 128, or a 41-character star-plus-40-hex string (MySQL 4.1+), or a
60-character bcrypt string with prefix dollar-2-optional-aby-dollar, two
digits, dollar, or carries the Argon2 dollar-argon2 prefix — and for no
other input shape. -/
theorem C6_hash_shapes_amended (s : String)
    (htrim : Kiss.pyStripL s.data = s.data) (hne : s.data ≠ [])
    (hip : Detect.is_ip_address s.data = false)
    (hbssid : Detect.is_bssid s.data = false) :
    Detect.detect_input_type s = some "HASH" ↔ Detect.hashShapeAmended s.data = true := by
  unfold Detect.detect_input_type
  rw [if_neg hne]
  simp only [htrim, hip, hbssid, Bool.false_eq_true, if_false]
  by_cases hsh : Detect.hashShapeAmended s.data = true
  · have hsome : (Detect.detect_hash_type s.data).isSome = true := by
      rw [Detect.detect_hash_type_isSome_eq]
      exact hsh
    simp [hsome, hsh]
  · have hfalse : (Detect.detect_hash_type s.data).isSome = false := by
      rw [Bool.eq_false_iff]
      intro hx
      rw [Detect.detect_hash_type_isSome_eq] at hx
      exact hsh hx
    simp only [hfalse, Bool.false_eq_true, if_false]
    constructor
    · intro hres
      split_ifs at hres <;> simp_all
    · intro hx
      exact absurd hx hsh

/-- Witness for C6 at a 32-character hex string (an MD5-shaped input). -/
theorem C6_hash_shapes_amended_witness :
    Kiss.pyStripL (String.mk (List.replicate 32 'a')).data =
      (String.mk (List.replicate 32 'a')).data ∧
    (String.mk (List.replicate 32 'a')).data ≠ [] ∧
    Detect.is_ip_address (String.mk (List.replicate 32 'a')).data = false ∧
    Detect.is_bssid (String.mk (List.replicate 32 'a')).data = false ∧
    Detect.detect_input_type (String.mk (List.replicate 32 'a')) = some "HASH" :=
  ⟨by decide, by decide, by decide, by decide,
    (C6_hash_shapes_amended (String.mk (List.replicate 32 'a')) (by decide) (by decide)
      (by decide) (by decide)).mpr (by decide)⟩

namespace QP

open Kiss

/-- One step of the _parse_structured loop appends exactly the scan type
the match contributes. -/
theorem stepMatch_types (st : PSState) (m : FieldMatch) :
    (stepMatch st m).types = st.types ++ (matchScanType m).toList := by
  simp only [stepMatch, matchScanType]
  split
  · simp
  · split
    · split
      · split <;> simp_all
      · simp_all
    · simp_all

/-- The loop's accumulated scan types are the matches' contributed types
in order. -/
theorem foldl_stepMatch_types (fms : List FieldMatch) :
    ∀ st : PSState, (fms.foldl stepMatch st).types = st.types ++ fms.filterMap matchScanType := by
  induction fms with
  | nil => intro st; simp
  | cons m ms ih =>
    intro st
    rw [List.foldl_cons, ih, stepMatch_types, List.filterMap_cons]
    cases matchScanType m <;> simp

/-- parse dispatches a nonempty structured query to _parse_structured. -/
theorem parseQuery_structured (q : String)
    (hs : isStructuredQueryL (pyStrip q).data = true)
    (hne : (pyStrip q).data ≠ []) :
    parseQuery q = parseStructuredQ (pyStrip q) := by
  unfold parseQuery
  simp only [hs]
  rw [if_neg hne]
  simp

end QP

/-- C4: for every structured query with at least one recognised field,
parse resolves the scan type as the first entry of the fixed priority
list EMAIL, IP, PHONE, WIFI, USERNAME, ADDRESS, HASH, DOMAIN, NAME that
occurs among the types contributed by the recognised fields, stores the
fields as a dict, and derives the primary target as the value of the
first preferred field of the winning type present in the dict; in
particular the query email:"a@b.com" ip:"1.1.1.1" resolves to EMAIL with
primary target a@b.com and no errors. -/
theorem C4_structured_priority_resolution :
    (∀ q : String,
      QP.isStructuredQueryL (Kiss.pyStrip q).data = true →
      (Kiss.pyStrip q).data ≠ [] →
      QP.structTypesOf q ≠ [] →
      ((QP.parseQuery q).scan_type =
         QP.SCAN_PRIORITY.find? (fun t => t ∈ QP.structTypesOf q) ∧
       (QP.parseQuery q).fields = QP.structFieldsOf q ∧
       (∀ w pl v, (QP.parseQuery q).scan_type = some w →
         Kiss.dlookup QP.typeToFieldTable w = some pl →
         pl.findSome? (fun fl => Kiss.dlookup (QP.structFieldsOf q) fl) = some v →
         (QP.parseQuery q).primary_target = v))) ∧
    QP.parseQuery "email:\"a@b.com\" ip:\"1.1.1.1\"" =
      { raw_query := "email:\"a@b.com\" ip:\"1.1.1.1\"", query_type := "structured",
        scan_type := some "EMAIL", primary_target := "a@b.com",
        fields := [("email", "a@b.com"), ("ip", "1.1.1.1")], errors := [],
        is_valid := true } := by
  constructor
  · intro q hs hne htypes
    rw [QP.parseQuery_structured q hs hne]
    have hfms : QP.findFields (Kiss.pyStrip q).data ≠ [] := by
      intro he
      apply htypes
      unfold QP.structTypesOf
      rw [he]
      rfl
    have htypes_eq :
        ((QP.findFields (Kiss.pyStrip q).data).foldl QP.stepMatch ⟨[], [], []⟩).types =
          QP.structTypesOf q := by
      rw [QP.foldl_stepMatch_types]
      simp [QP.structTypesOf]
    have hfields_eq :
        ((QP.findFields (Kiss.pyStrip q).data).foldl QP.stepMatch ⟨[], [], []⟩).fields =
          QP.structFieldsOf q := rfl
    simp only [QP.parseStructuredQ]
    rw [if_neg hfms]
    simp only [htypes_eq, hfields_eq]
    rw [if_neg htypes, if_neg htypes]
    refine ⟨rfl, trivial, ?_⟩
    intro w pl v hw hpl hfind
    rw [hw]
    simp only [QP.getPrimaryTarget, hpl, hfind]
  · decide

/-- Witness for C4 at the concrete two-field query. -/
theorem C4_structured_priority_resolution_witness :
    QP.isStructuredQueryL (Kiss.pyStrip "email:\"a@b.com\" ip:\"1.1.1.1\"").data = true ∧
    QP.structTypesOf "email:\"a@b.com\" ip:\"1.1.1.1\"" ≠ [] ∧
    (QP.parseQuery "email:\"a@b.com\" ip:\"1.1.1.1\"").scan_type =
      QP.SCAN_PRIORITY.find?
        (fun t => t ∈ QP.structTypesOf "email:\"a@b.com\" ip:\"1.1.1.1\"") ∧
    (QP.parseQuery "email:\"a@b.com\" ip:\"1.1.1.1\"").primary_target = "a@b.com" := by
  have h := C4_structured_priority_resolution.1 "email:\"a@b.com\" ip:\"1.1.1.1\""
    (by decide) (by decide) (by decide)
  exact ⟨by decide, by decide, h.1,
    h.2.2 "EMAIL" ["email", "mail", "e-mail"] "a@b.com" (by decide) (by decide) (by decide)⟩

namespace Detect

open Kiss

/-- Every character of a string the strict IPv4 parser accepts is a
digit or a dot. -/
theorem pyIPv4_chars {l : List Char} (h : pyIPv4 l = true) :
    ∀ c ∈ l, isDigitB c = true ∨ c = '.' := by
  unfold pyIPv4 at h
  simp only [Bool.and_eq_true, decide_eq_true_eq] at h
  obtain ⟨hlen, hall⟩ := h
  intro c hc
  rcases splitBy_chars '.' l c hc with hd | ⟨p, hp, hcp⟩
  · right; exact hd
  · left
    have hoct := List.all_eq_true.mp hall p hp
    unfold pyOctet at hoct
    simp only [Bool.and_eq_true, decide_eq_true_eq] at hoct
    exact List.all_eq_true.mp hoct.1.1.2 c hcp

/-- A strict IPv4 string has at most fifteen characters. -/
theorem pyIPv4_length_le {l : List Char} (h : pyIPv4 l = true) :
    l.length ≤ 15 := by
  unfold pyIPv4 at h
  simp only [Bool.and_eq_true, decide_eq_true_eq] at h
  obtain ⟨hlen, hall⟩ := h
  have hsum := splitBy_length '.' l
  have hbound : ∀ p ∈ splitBy '.' l, p.length ≤ 3 := by
    intro p hp
    have hoct := List.all_eq_true.mp hall p hp
    unfold pyOctet at hoct
    simp only [Bool.and_eq_true, decide_eq_true_eq] at hoct
    exact hoct.1.1.1.2
  have hsum2 : l.length + 1 = ((splitBy '.' l).map List.length).sum + 4 := by
    rw [hsum, hlen]
  rcases hps : splitBy '.' l with _ | ⟨a, _ | ⟨b, _ | ⟨c, _ | ⟨d, rest⟩⟩⟩⟩ <;>
    rw [hps] at hlen <;> simp at hlen
  rw [hps] at hsum2 hbound
  subst hlen
  have ha := hbound a (by simp)
  have hb := hbound b (by simp)
  have hc := hbound c (by simp)
  have hd := hbound d (by simp)
  simp at hsum2
  omega

/-- A strict IPv4 string is nonempty. -/
theorem pyIPv4_ne_nil {l : List Char} (h : pyIPv4 l = true) : l ≠ [] := by
  intro he
  rw [he] at h
  exact absurd h (by decide)

/-- The separated-BSSID pattern core forces the length 3n + 2. -/
theorem bssidGo_length : ∀ (n : Nat) (l : List Char), bssidGo n l = true →
    l.length = 3 * n + 2 := by
  intro n
  induction n with
  | zero =>
    intro l h
    match l with
    | [] => exact absurd h (by decide)
    | [a] => exact absurd h (by simp [bssidGo])
    | [a, b] => rfl
    | a :: b :: c :: rest => exact absurd h (by simp [bssidGo])
  | succ k ih =>
    intro l h
    match l with
    | [] => exact absurd h (by simp [bssidGo])
    | [a] => exact absurd h (by simp [bssidGo])
    | [a, b] => exact absurd h (by simp [bssidGo])
    | a :: b :: c :: rest =>
      unfold bssidGo at h
      simp only [Bool.and_eq_true] at h
      have hlenr := ih rest h.2
      simp only [List.length_cons, hlenr]
      omega

/-- The full BSSID pattern forces length seventeen. -/
theorem matchBssidRe_length {l : List Char} (h : matchBssidRe l = true) :
    l.length = 17 := bssidGo_length 5 l h

end Detect

namespace QP

open Kiss

/-- The dash-only BSSID pattern core forces the length 3n + 2. -/
theorem bssidGoDash_length : ∀ (n : Nat) (l : List Char), bssidGoDash n l = true →
    l.length = 3 * n + 2 := by
  intro n
  induction n with
  | zero =>
    intro l h
    match l with
    | [] => exact absurd h (by decide)
    | [a] => exact absurd h (by simp [bssidGoDash])
    | [a, b] => rfl
    | a :: b :: c :: rest => exact absurd h (by simp [bssidGoDash])
  | succ k ih =>
    intro l h
    match l with
    | [] => exact absurd h (by simp [bssidGoDash])
    | [a] => exact absurd h (by simp [bssidGoDash])
    | [a, b] => exact absurd h (by simp [bssidGoDash])
    | a :: b :: c :: rest =>
      unfold bssidGoDash at h
      simp only [Bool.and_eq_true] at h
      have hlenr := ih rest h.2
      simp only [List.length_cons, hlenr]
      omega

theorem bssidDashRe_length {l : List Char} (h : bssidDashRe l = true) :
    l.length = 17 := bssidGoDash_length 5 l h

/-- Without a colon in the input there is no field-pattern match. -/
theorem tryFieldAt_none_of_no_colon {l : List Char} (hno : ':' ∉ l) :
    tryFieldAt l = none := by
  unfold tryFieldAt
  by_cases hw : l.takeWhile isWordB = []
  · rw [if_pos hw]
  · rw [if_neg hw]
    split
    · rename_i c r2 hd
      have hc : c ≠ ':' := by
        intro he
        apply hno
        have hmem : c ∈ l := List.mem_of_mem_drop (hd ▸ List.mem_cons_self c r2)
        rwa [he] at hmem
      rw [if_neg hc]
    · rfl

/-- If the field-pattern scan finds any match, the string contains a
colon. -/
theorem findFieldsGo_nil_of_no_colon : ∀ (fuel : Nat) (l : List Char),
    ':' ∉ l → findFieldsGo fuel l = [] := by
  intro fuel
  induction fuel with
  | zero => intro l _; cases l <;> rfl
  | succ n ih =>
    intro l hno
    cases l with
    | nil => rfl
    | cons c rest =>
      unfold findFieldsGo
      rw [tryFieldAt_none_of_no_colon hno]
      exact ih rest (fun hm => hno (List.mem_cons_of_mem _ hm))

end QP

namespace QP

/-- A strict IPv4 octet (Python ipaddress) also matches the octet group
of the INPUT_PATTERNS ip regex. -/
theorem pyOctet_isOctetRe {g : List Char} (h : Detect.pyOctet g = true) :
    isOctetRe g = true := by
  unfold Detect.pyOctet at h
  simp only [Bool.and_eq_true, Bool.or_eq_true, decide_eq_true_eq] at h
  obtain ⟨⟨⟨⟨h1, h2⟩, hall⟩, hlead⟩, hval⟩ := h
  match g, h1, h2 with
  | [a], _, _ =>
    have ha := List.all_eq_true.mp hall a (by simp)
    simp [isOctetRe, ha]
  | [a, b], _, _ =>
    have ha := List.all_eq_true.mp hall a (by simp)
    have hb := List.all_eq_true.mp hall b (by simp)
    simp [isOctetRe, ha, hb]
  | [a, b, c], _, _ =>
    have ha := List.all_eq_true.mp hall a (by simp)
    have hb := List.all_eq_true.mp hall b (by simp)
    have hc := List.all_eq_true.mp hall c (by simp)
    have hlead2 : a ≠ '0' := by
      rcases hlead with h3 | h3
      · simp at h3
      · simpa using h3
    have hva := Kiss.digit_mem ha
    have hvb := Kiss.digit_mem hb
    have hvc := Kiss.digit_mem hc
    simp only [List.mem_cons, List.not_mem_nil, or_false] at hva hvb hvc
    unfold Detect.octVal at hval
    simp only [List.foldl_cons, List.foldl_nil] at hval
    rcases hva with rfl | rfl | rfl | rfl | rfl | rfl | rfl | rfl | rfl | rfl
    · exact absurd rfl hlead2
    · -- a = '1': third regex alternative
      simp [isOctetRe, hb, hc]
    · -- a = '2': split on b
      rcases hvb with rfl | rfl | rfl | rfl | rfl | rfl | rfl | rfl | rfl | rfl
      · simp [isOctetRe, hc]
      · simp [isOctetRe, hc]
      · simp [isOctetRe, hc]
      · simp [isOctetRe, hc]
      · simp [isOctetRe, hc]
      · -- b = '5': split on c
        rcases hvc with rfl | rfl | rfl | rfl | rfl | rfl | rfl | rfl | rfl | rfl <;>
          first
            | (simp [isOctetRe]; done)
            | (exfalso; revert hval; decide)
      · exfalso
        rw [show Kiss.digitVal '2' = 2 from rfl, show Kiss.digitVal '6' = 6 from rfl] at hval
        omega
      · exfalso
        rw [show Kiss.digitVal '2' = 2 from rfl, show Kiss.digitVal '7' = 7 from rfl] at hval
        omega
      · exfalso
        rw [show Kiss.digitVal '2' = 2 from rfl, show Kiss.digitVal '8' = 8 from rfl] at hval
        omega
      · exfalso
        rw [show Kiss.digitVal '2' = 2 from rfl, show Kiss.digitVal '9' = 9 from rfl] at hval
        omega
    all_goals
      (exfalso
       first
         | (rw [show Kiss.digitVal '3' = 3 from rfl] at hval; omega)
         | (rw [show Kiss.digitVal '4' = 4 from rfl] at hval; omega)
         | (rw [show Kiss.digitVal '5' = 5 from rfl] at hval; omega)
         | (rw [show Kiss.digitVal '6' = 6 from rfl] at hval; omega)
         | (rw [show Kiss.digitVal '7' = 7 from rfl] at hval; omega)
         | (rw [show Kiss.digitVal '8' = 8 from rfl] at hval; omega)
         | (rw [show Kiss.digitVal '9' = 9 from rfl] at hval; omega))
  | a :: b :: c :: d :: rest, _, h2 => simp at h2

end QP

/-- C3 counterexample: the simple (non-structured) input 1234567 is
resolved by the Query Parser's own fallback detection as USERNAME, while
the Target Classifier returns nothing for it, so parse and classify
disagree on a simple query: the parser's fallback is not the
classifier. -/
theorem C3_counterexample :
    QP.isStructuredQueryL ("1234567" : String).data = false ∧
    (QP.parseQuery "1234567").query_type = "simple" ∧
    (QP.parseQuery "1234567").scan_type = some "USERNAME" ∧
    Detect.detect_input_type "1234567" = none := by
  refine ⟨?_, ?_, ?_, ?_⟩ <;> decide

/-- C3 (amended): the parser's fallback detection is its own routine,
not the classifier, and the two can disagree on simple queries; they do
agree on every strict IPv4 dotted quad: such an input is never treated
as structured, the parser resolves it as a simple query of type IP, and
the classifier also returns IP. -/
theorem C3_parser_classifier_on_ipv4 (s : String)
    (hip : Detect.pyIPv4 s.data = true) :
    QP.isStructuredQueryL s.data = false ∧
    (QP.parseQuery s).query_type = "simple" ∧
    (QP.parseQuery s).scan_type = some "IP" ∧
    Detect.detect_input_type s = some "IP" := by
  have hchars := Detect.pyIPv4_chars hip
  have hws : ∀ c ∈ s.data, Kiss.pyWS c = false := by
    intro c hc
    rcases hchars c hc with hd | rfl
    · exact Kiss.digit_not_ws hd
    · decide
  have htrim : Kiss.pyStripL s.data = s.data := Kiss.pyStripL_no_ws hws
  have hlen : s.data.length ≤ 15 := Detect.pyIPv4_length_le hip
  have hne : s.data ≠ [] := Detect.pyIPv4_ne_nil hip
  have hnocolon : ':' ∉ s.data := by
    intro hc
    rcases hchars ':' hc with hd | hdot
    · exact absurd hd (by decide)
    · exact absurd hdot (by decide)
  have hnopipe : '|' ∉ s.data := by
    intro hc
    rcases hchars '|' hc with hd | hdot
    · exact absurd hd (by decide)
    · exact absurd hdot (by decide)
  have hnoat : '@' ∉ s.data := by
    intro hc
    rcases hchars '@' hc with hd | hdot
    · exact absurd hd (by decide)
    · exact absurd hdot (by decide)
  have hbssid : Detect.matchBssidRe s.data = false := by
    rw [← Bool.not_eq_true]
    intro hb
    have := Detect.matchBssidRe_length hb
    omega
  have hdash : QP.bssidDashRe s.data = false := by
    rw [← Bool.not_eq_true]
    intro hb
    have := QP.bssidDashRe_length hb
    omega
  have hff : QP.findFields s.data = [] :=
    QP.findFieldsGo_nil_of_no_colon _ s.data hnocolon
  have hstruct : QP.isStructuredQueryL s.data = false := by
    unfold QP.isStructuredQueryL
    rw [htrim, hbssid]
    simp only [Bool.false_eq_true, if_false]
    rw [hdash]
    simp only [Bool.false_eq_true, if_false]
    rw [if_neg (fun hx => hnopipe hx.1)]
    unfold QP.firstFieldName
    rw [hff]
    rfl
  have hemail : Detect.matchEmail s.data = false := by
    unfold Detect.matchEmail
    rw [Kiss.splitBy_eq_single hnoat]
  have hipre : QP.matchIPre s.data = true := by
    unfold QP.matchIPre
    unfold Detect.pyIPv4 at hip
    simp only [Bool.and_eq_true, decide_eq_true_eq] at hip ⊢
    refine ⟨hip.1, ?_⟩
    rw [List.all_eq_true]
    intro p hp
    exact QP.pyOctet_isOctetRe (List.all_eq_true.mp hip.2 p hp)
  have hps : Kiss.pyStrip s = s := by
    unfold Kiss.pyStrip
    rw [htrim]
  have hdet : QP.detectTypeSimple s = some "IP" := by
    unfold QP.detectTypeSimple
    simp only [htrim, hemail, hipre]
    simp
  refine ⟨hstruct, ?_, ?_, ?_⟩
  · unfold QP.parseQuery
    simp only [hps]
    rw [if_neg hne, hstruct]
    simp [QP.parseSimple]
  · unfold QP.parseQuery
    simp only [hps]
    rw [if_neg hne, hstruct]
    simp [QP.parseSimple, hdet]
  · unfold Detect.detect_input_type
    rw [if_neg hne]
    simp only [htrim]
    rw [show Detect.is_ip_address s.data = true by
      unfold Detect.is_ip_address; rw [hip]; rfl]
    simp

/-- Witness for C3 at the concrete address 8.8.8.8. -/
theorem C3_parser_classifier_on_ipv4_witness :
    Detect.pyIPv4 ("8.8.8.8" : String).data = true ∧
    QP.isStructuredQueryL ("8.8.8.8" : String).data = false ∧
    (QP.parseQuery "8.8.8.8").scan_type = some "IP" ∧
    Detect.detect_input_type "8.8.8.8" = some "IP" := by
  have h := C3_parser_classifier_on_ipv4 "8.8.8.8" (by decide)
  exact ⟨by decide, h.1, h.2.2.1, h.2.2.2⟩
